import Mathlib

set_option autoImplicit false

/-!
Shallow embedding of `src/index.tsx`: the `useMutationObserver` React hook.

The hook keeps two `useState` cells (`observer`, `value`), a per-render
closure `handleChanges`, and two `useEffect` registrations:

* effect 1 (deps `[handleChanges, options]`): `new MutationObserver(handleChanges)`
  followed by `setObserver(obs)`;
* effect 2 (deps `[observer, target, options]`): guard `!observer || !target`,
  `try observer.observe(target, options) catch console.error`, and a cleanup
  that calls `observer.disconnect()`.

The embedding is an explicit state machine over the component's lifecycle.
A binding instance is driven by external events: a render followed by its
effect commit, an asynchronous notification delivered by the browser to one
of the created `MutationObserver` handles, and unmount.  React semantics
modelled: `useState` cells are read at render time and written by the
setters for the next render; effects close over render-time values; on a
commit, cleanups of all effects with changed dependencies run first (in
declaration order), then the setups; on unmount all registered cleanups run.

Object identities are modelled as follows: each created observer handle gets
a fresh numeric id; the caller's `options` object identity is a numeric id
(`none` standing for the module-level default object); the per-render
`handleChanges` closure gets the render counter as its identity, so it is
fresh on every render, exactly as in the source; the caller's callback
identity is carried on the render event but — as in the source, where it
appears in no dependency list — never read by the machine.

Mutation record batches are opaque numeric ids; the caller's callback is
an arbitrary function from a batch and the closed-over observer id to an
optional derived value (`none` = JavaScript `undefined`).
-/

/-- `MutationObserverOptions` from the source: the recognized option keys.
A `none` field models an absent key. -/
structure MutationObserverOptions where
  attributes : Option Bool := none
  attributeOldValue : Option Bool := none
  attributeFilter : Option (List String) := none
  characterData : Option Bool := none
  characterDataOldValue : Option Bool := none
  childList : Option Bool := none
  subtree : Option Bool := none
deriving DecidableEq

/-- `defaultMutationObserverOptions` from the source: `{ attributes: true }`,
every other key absent. -/
def defaultMutationObserverOptions : MutationObserverOptions :=
  { attributes := some true }

/-- The caller's `callback` argument: absent (`undefined`), present but not a
function, or a function from a mutation-record batch and the observer handle
passed as second argument to an optional derived value. -/
inductive CbArg (α : Type) where
  | absent
  | notFn
  | fn (f : Nat → Nat → Option α)

/-- The `target` argument: an element reference with an identity and a flag
telling whether `observer.observe(target, options)` succeeds on it (`valid`)
or throws (not a valid observable node). -/
structure Target where
  id : Nat
  valid : Bool
deriving DecidableEq

/-- A caller-supplied `options` argument: its object identity and its value. -/
structure OptsArg where
  id : Nat
  val : MutationObserverOptions
deriving DecidableEq

/-- External events driving one binding instance: a render (with the props of
that render) followed by its effect commit, delivery of a mutation batch to a
created observer handle, and unmount.  `cbId` is the identity of the caller's
callback; the source never compares it, so the machine ignores it. -/
inductive Ev (α : Type) where
  | render (target : Option Target) (cb : CbArg α) (cbId : Nat) (opts : Option OptsArg)
  | notify (o : Nat) (batch : Nat)
  | unmount

/-- Observable actions, newest first in the machine's log. -/
inductive Act (α : Type) where
  | create (o : Nat)
  | observeOk (o : Nat) (t : Nat) (opts : MutationObserverOptions)
  | observeErr (o : Nat)
  | disconnect (o : Nat)
  | deliver (o : Nat) (batch : Nat)
  | warn (o : Nat)
  | invoke (o : Nat) (arg : Nat) (res : Option α)
  | rendered (v : Option α) (ob : Option Nat)
  | unmounted

/-- One created `MutationObserver` handle: the `observer` state value and the
`callback` prop closed over by the `handleChanges` closure it was constructed
with, whether it is currently observing, and whether `disconnect()` has been
called on it. -/
structure ObsRec (α : Type) where
  closedObserver : Option Nat
  closedCb : CbArg α
  observing : Bool
  disconnected : Bool

/-- The whole state of one binding instance between events. -/
structure HookState (α : Type) where
  renderCount : Nat
  observerCell : Option Nat
  valueCell : Option α
  nextId : Nat
  obsFun : Nat → ObsRec α
  eff1PrevDeps : Option (Nat × Option Nat)
  eff2PrevDeps : Option (Option Nat × Option Nat × Option Nat)
  eff2Cleanup : Option Nat
  mounted : Bool
  log : List (Act α)

/-- The state of a freshly mounted binding instance. -/
def initState (α : Type) : HookState α :=
  { renderCount := 0
    observerCell := none
    valueCell := none
    nextId := 0
    obsFun := fun _ => ⟨none, CbArg.absent, false, false⟩
    eff1PrevDeps := none
    eff2PrevDeps := none
    eff2Cleanup := none
    mounted := true
    log := [] }

/-- Resolve the `options` parameter default: an omitted argument means the
module-level `defaultMutationObserverOptions` object (identity `none`). -/
def effectiveOpts (optsArg : Option OptsArg) : Option Nat × MutationObserverOptions :=
  match optsArg with
  | none => (none, defaultMutationObserverOptions)
  | some a => (some a.id, a.val)

/-- Replace the record of handle `o`. -/
def setObs {α : Type} (s : HookState α) (o : Nat) (r : ObsRec α) : HookState α :=
  { s with obsFun := fun k => if k = o then r else s.obsFun k }

/-- `observer.disconnect()` on handle `o`, logged. -/
def disconnectObs {α : Type} (s : HookState α) (o : Nat) : HookState α :=
  { setObs s o { s.obsFun o with observing := false, disconnected := true } with
      log := Act.disconnect o :: s.log }

/-- Run the registered cleanup of the observe effect, if any: the source's
`() => { if (observer) observer.disconnect() }` closure. -/
def runCleanup {α : Type} (s : HookState α) : HookState α :=
  match s.eff2Cleanup with
  | none => s
  | some o => { disconnectObs s o with eff2Cleanup := none }

/-- Setup of the first effect, from the source: `const obs = new
MutationObserver(handleChanges); setObserver(obs)`.  `obsR` and `cb` are the
render-time `observer` state value and `callback` prop closed over by the
`handleChanges` closure the new handle is constructed with; the new deps are
the fresh `handleChanges` identity (the current render counter) and the
`options` identity. -/
def createObserverEffect {α : Type} (s : HookState α) (obsR : Option Nat)
    (cb : CbArg α) (optsId : Option Nat) : HookState α :=
  let o := s.nextId
  { setObs s o ⟨obsR, cb, false, false⟩ with
      nextId := o + 1
      observerCell := some o
      eff1PrevDeps := some (s.renderCount, optsId)
      log := Act.create o :: s.log }

/-- Setup of the second effect, from the source: guard `!observer || !target`,
then `try observer.observe(target, options) catch (error) console.error(error)`,
then registration of the disconnect cleanup (registered whether or not
`observe` threw, since the `return` follows the `try`/`catch`). -/
def observeEffect {α : Type} (s : HookState α) (obsR : Option Nat)
    (target : Option Target) (optsId : Option Nat)
    (opts : MutationObserverOptions) : HookState α :=
  let s1 := { s with eff2PrevDeps := some (obsR, Option.map Target.id target, optsId) }
  match obsR, target with
  | some o, some t =>
    let s2 :=
      if t.valid then
        { setObs s1 o { s1.obsFun o with observing := true } with
            log := Act.observeOk o t.id opts :: s1.log }
      else
        { s1 with log := Act.observeErr o :: s1.log }
    { s2 with eff2Cleanup := some o }
  | _, _ => { s1 with eff2Cleanup := none }

/-- One render of `useMutationObserver` followed by its effect commit.  The
render reads the two state cells (the `return [value, observer]` output is
logged as `Act.rendered`); the commit then runs, for each effect whose
dependency list changed, its cleanup, then its setup — cleanups before
setups, in declaration order.  The `handleChanges` identity is the bumped
render counter, fresh on every render as in the source. -/
def stepRender {α : Type} (s : HookState α) (target : Option Target)
    (cb : CbArg α) (optsArg : Option OptsArg) : HookState α :=
  if s.mounted then
    let eo := effectiveOpts optsArg
    let obsR := s.observerCell
    let e1deps : Nat × Option Nat := (s.renderCount + 1, eo.1)
    let e2deps : Option Nat × Option Nat × Option Nat :=
      (obsR, Option.map Target.id target, eo.1)
    let s0 := { s with
      renderCount := s.renderCount + 1
      log := Act.rendered s.valueCell obsR :: s.log }
    let s1 := if s.eff2PrevDeps = some e2deps then s0 else runCleanup s0
    let s2 := if s.eff1PrevDeps = some e1deps then s1
              else createObserverEffect s1 obsR cb eo.1
    if s.eff2PrevDeps = some e2deps then s2 else observeEffect s2 obsR target eo.1 eo.2
  else s

/-- The body of the `handleChanges` closure of handle `o` (record `r`),
applied to batch `b`: guard on the closed-over `observer`, then either invoke
the callback — storing its result via `setValue` only when it is defined — or
warn that the callback is not a function. -/
def handleChanges {α : Type} (s : HookState α) (o : Nat) (r : ObsRec α)
    (b : Nat) : HookState α :=
  match r.closedObserver with
  | none => s
  | some co =>
    match r.closedCb with
    | CbArg.fn f =>
      let res := f b co
      let s1 := { s with log := Act.invoke o co res :: s.log }
      match res with
      | some v => { s1 with valueCell := some v }
      | none => s1
    | _ => { s with log := Act.warn o :: s.log }

/-- Delivery of mutation batch `b` to handle `o`: the browser invokes the
handle's `handleChanges` closure only while the handle is actively
observing. -/
def stepNotify {α : Type} (s : HookState α) (o : Nat) (b : Nat) : HookState α :=
  if (s.obsFun o).observing then
    handleChanges { s with log := Act.deliver o b :: s.log } o (s.obsFun o) b
  else s

/-- Unmount: React runs every registered cleanup; only the observe effect has
one. -/
def stepUnmount {α : Type} (s : HookState α) : HookState α :=
  if s.mounted then
    let s1 := runCleanup s
    { s1 with mounted := false, log := Act.unmounted :: s1.log }
  else s

/-- One event of the binding instance's lifecycle. -/
def step {α : Type} (s : HookState α) : Ev α → HookState α
  | Ev.render t cb _ opts => stepRender s t cb opts
  | Ev.notify o b => stepNotify s o b
  | Ev.unmount => stepUnmount s

/-- Run a sequence of events from a given state. -/
def runFrom {α : Type} (s : HookState α) (evs : List (Ev α)) : HookState α :=
  evs.foldl step s

/-- Run a sequence of events from the freshly mounted state: every reachable
state of one binding instance has this form. -/
def run {α : Type} (evs : List (Ev α)) : HookState α :=
  runFrom (initState α) evs

/-- The hook's `return [value, observer]` output at a render reading state
`s`. -/
def useMutationObserverReturn {α : Type} (s : HookState α) :
    Option α × Option Nat :=
  (s.valueCell, s.observerCell)

/-- Number of `disconnect()` calls on handle `o` recorded in the log. -/
def countDisc {α : Type} (l : List (Act α)) (o : Nat) : Nat :=
  l.countP fun a => match a with | Act.disconnect k => k == o | _ => false

/-- Total number of `disconnect()` calls recorded in the log. -/
def countDiscAll {α : Type} (l : List (Act α)) : Nat :=
  l.countP fun a => match a with | Act.disconnect _ => true | _ => false

/-- Number of handle creations recorded in the log. -/
def countCreate {α : Type} (l : List (Act α)) : Nat :=
  l.countP fun a => match a with | Act.create _ => true | _ => false

/-- Number of emitted `console.warn` diagnostics recorded in the log. -/
def countWarn {α : Type} (l : List (Act α)) : Nat :=
  l.countP fun a => match a with | Act.warn _ => true | _ => false

/-- Number of callback invocations recorded in the log. -/
def countInvoke {α : Type} (l : List (Act α)) : Nat :=
  l.countP fun a => match a with | Act.invoke _ _ _ => true | _ => false

/-- Number of delivered mutation batches recorded in the log. -/
def countDeliver {α : Type} (l : List (Act α)) : Nat :=
  l.countP fun a => match a with | Act.deliver _ _ => true | _ => false

/-- Number of successful `observe` registrations recorded in the log. -/
def countObserveOk {α : Type} (l : List (Act α)) : Nat :=
  l.countP fun a => match a with | Act.observeOk _ _ _ => true | _ => false

/-- Number of caught-and-logged `observe` failures recorded in the log. -/
def countObserveErr {α : Type} (l : List (Act α)) : Nat :=
  l.countP fun a => match a with | Act.observeErr _ => true | _ => false

/-- Number of created handles that are actively observing. -/
def countObserving {α : Type} (s : HookState α) : Nat :=
  (List.range s.nextId).countP fun o => (s.obsFun o).observing

/-- Number of created handles on which `disconnect()` has never been called:
the claims' "live (non-disconnected)" handles. -/
def countLive {α : Type} (s : HookState α) : Nat :=
  (List.range s.nextId).countP fun o => !(s.obsFun o).disconnected

/-- The latest defined callback result recorded in the log (newest first). -/
def latestDefined {α : Type} : List (Act α) → Option α
  | [] => none
  | Act.invoke _ _ (some v) :: _ => some v
  | _ :: l => latestDefined l

/-- The defined result, if any, that delivering batch `b` to handle `o` in
state `s` would produce: the handle must be observing, its closed-over
`observer` non-null and its closed-over `callback` a function, and the
callback's result defined. -/
def deliveredDefinedResult {α : Type} (s : HookState α) (o b : Nat) : Option α :=
  if (s.obsFun o).observing then
    match (s.obsFun o).closedObserver, (s.obsFun o).closedCb with
    | some co, CbArg.fn f => f b co
    | _, _ => none
  else none

/-- Whether a callback argument is an invokable function. -/
def CbArg.isFn {α : Type} : CbArg α → Bool
  | CbArg.fn _ => true
  | _ => false

/-- An event that supplies no invokable callback (notifications and unmount
trivially so). -/
def noFnEv {α : Type} : Ev α → Prop
  | Ev.render _ cb _ _ => cb.isFn = false
  | _ => True

/-! Small characterization lemmas for the phase functions and the counters. -/

theorem countDisc_cons_disconnect {α : Type} (j : Nat) (l : List (Act α)) (k : Nat) :
    countDisc (Act.disconnect j :: l) k = countDisc l k + (if j = k then 1 else 0) := by
  simp [countDisc, List.countP_cons]

theorem countDisc_cons_skip {α : Type} (a : Act α) (l : List (Act α)) (k : Nat)
    (h : ∀ j, a ≠ Act.disconnect j) : countDisc (a :: l) k = countDisc l k := by
  cases a
  case disconnect j => exact absurd rfl (h j)
  all_goals simp [countDisc, List.countP_cons]

theorem latestDefined_cons_skip {α : Type} (a : Act α) (l : List (Act α))
    (h : ∀ o arg v, a ≠ Act.invoke o arg (some v)) :
    latestDefined (a :: l) = latestDefined l := by
  cases a with
  | invoke o arg res =>
    cases res with
    | none => rfl
    | some v => exact absurd rfl (h o arg v)
  | create o => rfl
  | observeOk o t opts => rfl
  | observeErr o => rfl
  | disconnect o => rfl
  | deliver o b => rfl
  | warn o => rfl
  | rendered v ob => rfl
  | unmounted => rfl

theorem latestDefined_cons_invoke_some {α : Type} (o arg : Nat) (v : α)
    (l : List (Act α)) : latestDefined (Act.invoke o arg (some v) :: l) = some v := rfl

theorem setObs_obsFun {α : Type} (s : HookState α) (o : Nat) (r : ObsRec α) (k : Nat) :
    (setObs s o r).obsFun k = if k = o then r else s.obsFun k := rfl

theorem runCleanup_eq_none {α : Type} (s : HookState α) (h : s.eff2Cleanup = none) :
    runCleanup s = s := by
  simp [runCleanup, h]

theorem runCleanup_eq_some {α : Type} (s : HookState α) (p : Nat)
    (h : s.eff2Cleanup = some p) :
    runCleanup s = { disconnectObs s p with eff2Cleanup := none } := by
  simp [runCleanup, h]

theorem runCleanup_observerCell {α : Type} (s : HookState α) :
    (runCleanup s).observerCell = s.observerCell := by
  cases h : s.eff2Cleanup <;> simp [runCleanup, h, disconnectObs, setObs]

theorem runCleanup_valueCell {α : Type} (s : HookState α) :
    (runCleanup s).valueCell = s.valueCell := by
  cases h : s.eff2Cleanup <;> simp [runCleanup, h, disconnectObs, setObs]

theorem runCleanup_nextId {α : Type} (s : HookState α) :
    (runCleanup s).nextId = s.nextId := by
  cases h : s.eff2Cleanup <;> simp [runCleanup, h, disconnectObs, setObs]

theorem runCleanup_renderCount {α : Type} (s : HookState α) :
    (runCleanup s).renderCount = s.renderCount := by
  cases h : s.eff2Cleanup <;> simp [runCleanup, h, disconnectObs, setObs]

theorem runCleanup_eff1PrevDeps {α : Type} (s : HookState α) :
    (runCleanup s).eff1PrevDeps = s.eff1PrevDeps := by
  cases h : s.eff2Cleanup <;> simp [runCleanup, h, disconnectObs, setObs]

theorem runCleanup_eff2PrevDeps {α : Type} (s : HookState α) :
    (runCleanup s).eff2PrevDeps = s.eff2PrevDeps := by
  cases h : s.eff2Cleanup <;> simp [runCleanup, h, disconnectObs, setObs]

theorem runCleanup_mounted {α : Type} (s : HookState α) :
    (runCleanup s).mounted = s.mounted := by
  cases h : s.eff2Cleanup <;> simp [runCleanup, h, disconnectObs, setObs]

/-! The reachable-state invariant of one binding instance. -/

/-- Invariant of a binding instance's state, true of every reachable state.
In particular: the `observer` cell holds the most recently created handle;
the `handleChanges` closure of handle `k` closed over the previously created
handle (null for the first handle); at most one handle is actively observing,
namely the one held by the registered cleanup; `disconnect()` has been called
exactly once on a handle iff it is marked disconnected; the recorded effect
dependencies are stale relative to the current render (so both effects re-run
on every commit); after unmount nothing observes; and the `value` cell holds
the latest defined callback result. -/
structure HookInv {α : Type} (s : HookState α) : Prop where
  cellEq : s.observerCell = if s.nextId = 0 then none else some (s.nextId - 1)
  closedEq : ∀ k, k < s.nextId →
    (s.obsFun k).closedObserver = if k = 0 then none else some (k - 1)
  frame : ∀ k, s.nextId ≤ k → s.obsFun k = ⟨none, CbArg.absent, false, false⟩
  observingCleanup : ∀ k, (s.obsFun k).observing = true → s.eff2Cleanup = some k
  cleanupLt : ∀ k, s.eff2Cleanup = some k → k < s.nextId
  cleanupNotDisc : ∀ k, s.eff2Cleanup = some k → (s.obsFun k).disconnected = false
  cleanupLtCell : ∀ k c, s.eff2Cleanup = some k → s.observerCell = some c → k < c
  cellNotDisc : ∀ c, s.observerCell = some c → (s.obsFun c).disconnected = false
  discLog : ∀ k, countDisc s.log k = if (s.obsFun k).disconnected then 1 else 0
  e1prev : ∀ n oid, s.eff1PrevDeps = some (n, oid) → n ≤ s.renderCount
  e2prevObs : ∀ d, s.eff2PrevDeps = some d →
    (match d.1 with
     | none => 1 ≤ s.nextId
     | some j => j + 2 ≤ s.nextId)
  mountedObs : s.mounted = false → ∀ k, (s.obsFun k).observing = false
  valueLog : s.valueCell = latestDefined s.log

theorem inv_initState (α : Type) : HookInv (initState α) := by
  constructor <;> simp [initState, countDisc, latestDefined]

/-- Given the invariant, the recorded deps of the observer-creation effect
never match the current ones: the fresh `handleChanges` identity differs. -/
theorem eff1_deps_ne {α : Type} {s : HookState α} (hInv : HookInv s) (oid : Option Nat) :
    s.eff1PrevDeps ≠ some (s.renderCount + 1, oid) := by
  intro h
  have := hInv.e1prev _ _ h
  omega

/-- Given the invariant, the recorded deps of the observe effect never match
the current ones: the `observer` cell has moved past the recorded value. -/
theorem eff2_deps_ne {α : Type} {s : HookState α} (hInv : HookInv s)
    (tp oid : Option Nat) :
    s.eff2PrevDeps ≠ some (s.observerCell, tp, oid) := by
  intro h
  have h2 := hInv.e2prevObs _ h
  have hc := hInv.cellEq
  by_cases h0 : s.nextId = 0
  · rw [hc, if_pos h0] at h
    have := hInv.e2prevObs _ h
    simp at this
    omega
  · rw [hc, if_neg h0] at h
    have := hInv.e2prevObs _ h
    simp at this
    omega

/-- On a mounted render, both effects re-run: the commit is the cleanup of
the observe effect followed by the two setups. -/
theorem stepRender_eq {α : Type} {s : HookState α} (hInv : HookInv s)
    (hm : s.mounted = true) (t : Option Target) (cb : CbArg α)
    (opts : Option OptsArg) :
    stepRender s t cb opts =
      observeEffect
        (createObserverEffect
          (runCleanup
            { s with
                renderCount := s.renderCount + 1
                log := Act.rendered s.valueCell s.observerCell :: s.log })
          s.observerCell cb (effectiveOpts opts).1)
        s.observerCell t (effectiveOpts opts).1 (effectiveOpts opts).2 := by
  have h1 := eff1_deps_ne hInv (effectiveOpts opts).1
  have h2 := eff2_deps_ne hInv (Option.map Target.id t) (effectiveOpts opts).1
  simp only [stepRender, hm, if_true, if_neg h1, if_neg h2]

theorem stepRender_unmounted {α : Type} {s : HookState α} (hm : s.mounted = false)
    (t : Option Target) (cb : CbArg α) (opts : Option OptsArg) :
    stepRender s t cb opts = s := by
  simp [stepRender, hm]

/-! Invariant preservation, phase by phase. -/

theorem runCleanup_noObserving {α : Type} {s : HookState α} (hInv : HookInv s) :
    ∀ k, ((runCleanup s).obsFun k).observing = false := by
  intro k
  cases h : s.eff2Cleanup with
  | none =>
    rw [runCleanup_eq_none s h]
    by_cases hk : (s.obsFun k).observing = true
    · exact absurd (hInv.observingCleanup k hk) (by simp [h])
    · simpa using hk
  | some p =>
    rw [runCleanup_eq_some s p h]
    simp only [disconnectObs, setObs]
    by_cases hk : k = p
    · simp [hk]
    · simp only [if_neg hk]
      by_cases hko : (s.obsFun k).observing = true
      · have := hInv.observingCleanup k hko
        rw [h] at this
        exact absurd (Option.some_injective _ this.symm) hk
      · simpa using hko

theorem runCleanup_eff2Cleanup {α : Type} (s : HookState α) :
    (runCleanup s).eff2Cleanup = none ∨ runCleanup s = s := by
  cases h : s.eff2Cleanup with
  | none => exact Or.inr (runCleanup_eq_none s h)
  | some p => exact Or.inl (by rw [runCleanup_eq_some s p h])

theorem runCleanup_obsFun_ne {α : Type} (s : HookState α) {k : Nat}
    (h : ∀ p, s.eff2Cleanup = some p → k ≠ p) :
    ((runCleanup s).obsFun k) = s.obsFun k := by
  cases hc : s.eff2Cleanup with
  | none => rw [runCleanup_eq_none s hc]
  | some p =>
    rw [runCleanup_eq_some s p hc]
    simp only [disconnectObs, setObs]
    rw [if_neg (h p hc)]

theorem hookInv_runCleanup {α : Type} {s : HookState α} (hInv : HookInv s) :
    HookInv (runCleanup s) := by
  cases hc : s.eff2Cleanup with
  | none => rw [runCleanup_eq_none s hc]; exact hInv
  | some p =>
    have hplt := hInv.cleanupLt p hc
    have hpnd := hInv.cleanupNotDisc p hc
    rw [runCleanup_eq_some s p hc]
    constructor
    · exact hInv.cellEq
    · intro k hk
      simp only [disconnectObs, setObs]
      by_cases hkp : k = p
      · subst hkp
        simpa using hInv.closedEq k hk
      · simp only [if_neg hkp]
        exact hInv.closedEq k hk
    · intro k hk
      simp only [disconnectObs, setObs] at hk ⊢
      rw [if_neg (show ¬k = p by omega)]
      exact hInv.frame k hk
    · intro k hk
      exfalso
      simp only [disconnectObs, setObs] at hk
      by_cases hkp : k = p
      · simp [hkp] at hk
      · rw [if_neg hkp] at hk
        have := hInv.observingCleanup k hk
        rw [hc] at this
        exact hkp (Option.some_injective _ this).symm
    · intro k hk
      simp at hk
    · intro k hk
      simp at hk
    · intro k c hk
      simp at hk
    · intro c hcell
      have hlt := hInv.cleanupLtCell p c hc hcell
      simp only [disconnectObs, setObs]
      rw [if_neg (by omega)]
      exact hInv.cellNotDisc c hcell
    · intro k
      simp only [disconnectObs, setObs, countDisc_cons_disconnect, hInv.discLog k]
      by_cases hkp : k = p
      · subst hkp
        simp [hpnd]
      · have hpk : ¬p = k := fun h => hkp h.symm
        simp [hkp, hpk]
    · intro n oid h
      simp only [disconnectObs, setObs] at h
      exact hInv.e1prev n oid h
    · intro d h
      simp only [disconnectObs, setObs] at h
      exact hInv.e2prevObs d h
    · intro hm k
      simp only [disconnectObs, setObs]
      by_cases hkp : k = p
      · simp [hkp]
      · rw [if_neg hkp]
        simp only [disconnectObs, setObs] at hm
        exact hInv.mountedObs hm k
    · simp only [disconnectObs, setObs]
      rw [latestDefined_cons_skip _ _ (by intro o arg v h; cases h)]
      exact hInv.valueLog

theorem hookInv_renderBump {α : Type} {s : HookState α} (hInv : HookInv s)
    (v : Option α) (ob : Option Nat) :
    HookInv { s with
        renderCount := s.renderCount + 1
        log := Act.rendered v ob :: s.log } := by
  constructor
  · exact hInv.cellEq
  · exact hInv.closedEq
  · exact hInv.frame
  · exact hInv.observingCleanup
  · exact hInv.cleanupLt
  · exact hInv.cleanupNotDisc
  · exact hInv.cleanupLtCell
  · exact hInv.cellNotDisc
  · intro k
    rw [countDisc_cons_skip _ _ _ (by intro j h; cases h)]
    exact hInv.discLog k
  · intro n oid h
    exact Nat.le_succ_of_le (hInv.e1prev n oid h)
  · exact hInv.e2prevObs
  · exact hInv.mountedObs
  · rw [latestDefined_cons_skip _ _ (by intro o arg w h; cases h)]
    exact hInv.valueLog

theorem createObserverEffect_noObserving {α : Type} {s : HookState α}
    (hno : ∀ k, (s.obsFun k).observing = false) (obsR : Option Nat)
    (cb : CbArg α) (oid : Option Nat) :
    ∀ k, ((createObserverEffect s obsR cb oid).obsFun k).observing = false := by
  intro k
  simp only [createObserverEffect, setObs]
  by_cases hk : k = s.nextId
  · simp [hk]
  · simp only [if_neg hk]
    exact hno k

theorem hookInv_createObserverEffect {α : Type} {s : HookState α}
    {obsR : Option Nat} {cb : CbArg α} {oid : Option Nat} (hInv : HookInv s)
    (hobs : obsR = s.observerCell)
    (hno : ∀ k, (s.obsFun k).observing = false)
    (hslot : s.eff2Cleanup = none) :
    HookInv (createObserverEffect s obsR cb oid) := by
  constructor
  · simp [createObserverEffect, setObs]
  · intro k hk
    simp only [createObserverEffect, setObs] at hk ⊢
    by_cases hke : k = s.nextId
    · subst hke
      simpa [hobs] using hInv.cellEq
    · rw [if_neg hke]
      exact hInv.closedEq k (by omega)
  · intro k hk
    simp only [createObserverEffect, setObs] at hk ⊢
    rw [if_neg (show ¬k = s.nextId by omega)]
    exact hInv.frame k (by omega)
  · intro k hk
    exact absurd hk (by simp [createObserverEffect_noObserving hno obsR cb oid k])
  · intro k hk
    simp only [createObserverEffect, setObs] at hk
    rw [hslot] at hk
    cases hk
  · intro k hk
    simp only [createObserverEffect, setObs] at hk
    rw [hslot] at hk
    cases hk
  · intro k c hk
    simp only [createObserverEffect, setObs] at hk
    rw [hslot] at hk
    cases hk
  · intro c hc
    simp only [createObserverEffect, setObs] at hc ⊢
    have : c = s.nextId := by simpa using hc.symm
    simp [this]
  · intro k
    simp only [createObserverEffect, setObs]
    rw [countDisc_cons_skip _ _ _ (by intro j h; cases h), hInv.discLog k]
    by_cases hke : k = s.nextId
    · rw [hke]
      simp [hInv.frame s.nextId le_rfl]
    · simp [hke]
  · intro n oid' h
    have h2 : s.renderCount = n ∧ oid = oid' := by
      simpa [createObserverEffect, setObs] using h
    obtain ⟨h3, -⟩ := h2
    simp only [createObserverEffect, setObs]
    omega
  · intro d h
    simp only [createObserverEffect, setObs] at h
    have h2 := hInv.e2prevObs d h
    simp only [createObserverEffect, setObs]
    cases hd : d.1 with
    | none =>
      rw [hd] at h2
      simp only at h2 ⊢
      omega
    | some j =>
      rw [hd] at h2
      simp only at h2 ⊢
      omega
  · intro hm k
    exact createObserverEffect_noObserving hno obsR cb oid k
  · simp only [createObserverEffect, setObs]
    rw [latestDefined_cons_skip _ _ (by intro o arg w h; cases h)]
    exact hInv.valueLog

theorem hookInv_observeEffect {α : Type} {s : HookState α} {obsR : Option Nat}
    {t : Option Target} {oid : Option Nat} {opts : MutationObserverOptions}
    (hInv : HookInv s)
    (hm : s.mounted = true)
    (hno : ∀ k, (s.obsFun k).observing = false)
    (hrel : ∀ o, obsR = some o → o + 2 ≤ s.nextId)
    (hrel0 : obsR = none → 1 ≤ s.nextId)
    (hnd : ∀ o, obsR = some o → (s.obsFun o).disconnected = false)
    (hcell : ∀ o, obsR = some o → ∀ c, s.observerCell = some c → o < c) :
    HookInv (observeEffect s obsR t oid opts) := by
  cases obsR with
  | none =>
    cases t with
    | none =>
      simp only [observeEffect]
      constructor
      · exact hInv.cellEq
      · exact hInv.closedEq
      · exact hInv.frame
      · intro k hk; rw [hno k] at hk; cases hk
      · intro k hk; cases hk
      · intro k hk; cases hk
      · intro k c hk; cases hk
      · exact hInv.cellNotDisc
      · exact hInv.discLog
      · exact hInv.e1prev
      · intro d h
        have hd : d = (none, none, oid) := by simpa using h.symm
        subst hd
        simpa using hrel0 rfl
      · intro _ k; exact hno k
      · exact hInv.valueLog
    | some tt =>
      simp only [observeEffect]
      constructor
      · exact hInv.cellEq
      · exact hInv.closedEq
      · exact hInv.frame
      · intro k hk; rw [hno k] at hk; cases hk
      · intro k hk; cases hk
      · intro k hk; cases hk
      · intro k c hk; cases hk
      · exact hInv.cellNotDisc
      · exact hInv.discLog
      · exact hInv.e1prev
      · intro d h
        have hd : d = (none, some tt.id, oid) := by simpa using h.symm
        subst hd
        simpa using hrel0 rfl
      · intro _ k; exact hno k
      · exact hInv.valueLog
  | some o =>
    have holt : o + 2 ≤ s.nextId := hrel o rfl
    have hond : (s.obsFun o).disconnected = false := hnd o rfl
    cases t with
    | none =>
      simp only [observeEffect]
      constructor
      · exact hInv.cellEq
      · exact hInv.closedEq
      · exact hInv.frame
      · intro k hk; rw [hno k] at hk; cases hk
      · intro k hk; cases hk
      · intro k hk; cases hk
      · intro k c hk; cases hk
      · exact hInv.cellNotDisc
      · exact hInv.discLog
      · exact hInv.e1prev
      · intro d h
        have hd : d = (some o, none, oid) := by simpa using h.symm
        subst hd
        simpa using holt
      · intro _ k; exact hno k
      · exact hInv.valueLog
    | some tt =>
      by_cases htv : tt.valid = true
      · simp only [observeEffect, if_pos htv, setObs]
        constructor
        · exact hInv.cellEq
        · intro k hk
          by_cases hko : k = o
          · subst hko
            simpa using hInv.closedEq k (by omega)
          · simpa [hko] using hInv.closedEq k (by simpa using hk)
        · intro k hk
          dsimp only at hk ⊢
          rw [if_neg (show ¬k = o by omega)]
          exact hInv.frame k hk
        · intro k hk
          dsimp only at hk ⊢
          by_cases hko : k = o
          · rw [hko]
          · rw [if_neg hko] at hk
            rw [hno k] at hk
            cases hk
        · intro k hk
          have hko : k = o := by simpa using hk.symm
          dsimp only
          omega
        · intro k hk
          have hko : k = o := by simpa using hk.symm
          subst hko
          simpa using hond
        · intro k c hk hc
          have hko : k = o := by simpa using hk.symm
          subst hko
          exact hcell k rfl c (by simpa using hc)
        · intro c hc
          simp only at hc ⊢
          have hoc := hcell o rfl c hc
          rw [if_neg (show ¬c = o by omega)]
          exact hInv.cellNotDisc c hc
        · intro k
          rw [countDisc_cons_skip _ _ _ (by intro j h; cases h), hInv.discLog k]
          by_cases hko : k = o
          · subst hko
            simp
          · simp [hko]
        · exact hInv.e1prev
        · intro d h
          have hd : d = (some o, some tt.id, oid) := by simpa using h.symm
          subst hd
          simpa using holt
        · intro hmf
          dsimp only at hmf
          rw [hm] at hmf
          cases hmf
        · rw [latestDefined_cons_skip _ _ (by intro oo arg w h; cases h)]
          exact hInv.valueLog
      · simp only [observeEffect, if_neg htv]
        constructor
        · exact hInv.cellEq
        · exact hInv.closedEq
        · exact hInv.frame
        · intro k hk; rw [hno k] at hk; cases hk
        · intro k hk
          have hko : k = o := by simpa using hk.symm
          dsimp only
          omega
        · intro k hk
          have hko : k = o := by simpa using hk.symm
          subst hko
          exact hond
        · intro k c hk hc
          have hko : k = o := by simpa using hk.symm
          subst hko
          exact hcell k rfl c (by simpa using hc)
        · exact hInv.cellNotDisc
        · intro k
          rw [countDisc_cons_skip _ _ _ (by intro j h; cases h)]
          exact hInv.discLog k
        · exact hInv.e1prev
        · intro d h
          have hd : d = (some o, some tt.id, oid) := by simpa using h.symm
          subst hd
          simpa using holt
        · intro _ k; exact hno k
        · rw [latestDefined_cons_skip _ _ (by intro oo arg w h; cases h)]
          exact hInv.valueLog

theorem runCleanup_eff2Cleanup_none {α : Type} (s : HookState α) :
    (runCleanup s).eff2Cleanup = none := by
  cases h : s.eff2Cleanup <;> simp [runCleanup, h, disconnectObs, setObs]

theorem createObserverEffect_nextId {α : Type} (s : HookState α)
    (obsR : Option Nat) (cb : CbArg α) (oid : Option Nat) :
    (createObserverEffect s obsR cb oid).nextId = s.nextId + 1 := rfl

theorem createObserverEffect_observerCell {α : Type} (s : HookState α)
    (obsR : Option Nat) (cb : CbArg α) (oid : Option Nat) :
    (createObserverEffect s obsR cb oid).observerCell = some s.nextId := rfl

theorem createObserverEffect_mounted {α : Type} (s : HookState α)
    (obsR : Option Nat) (cb : CbArg α) (oid : Option Nat) :
    (createObserverEffect s obsR cb oid).mounted = s.mounted := rfl

theorem createObserverEffect_obsFun {α : Type} (s : HookState α)
    (obsR : Option Nat) (cb : CbArg α) (oid : Option Nat) (k : Nat) :
    (createObserverEffect s obsR cb oid).obsFun k =
      if k = s.nextId then ⟨obsR, cb, false, false⟩ else s.obsFun k := rfl

theorem createObserverEffect_log {α : Type} (s : HookState α)
    (obsR : Option Nat) (cb : CbArg α) (oid : Option Nat) :
    (createObserverEffect s obsR cb oid).log = Act.create s.nextId :: s.log := rfl

theorem hookInv_stepRender {α : Type} {s : HookState α} (hInv : HookInv s)
    (t : Option Target) (cb : CbArg α) (opts : Option OptsArg) :
    HookInv (stepRender s t cb opts) := by
  by_cases hm : s.mounted = true
  · rw [stepRender_eq hInv hm t cb opts]
    set s0 : HookState α := { s with
        renderCount := s.renderCount + 1
        log := Act.rendered s.valueCell s.observerCell :: s.log } with hs0
    have inv0 : HookInv s0 := hookInv_renderBump hInv s.valueCell s.observerCell
    have inv1 : HookInv (runCleanup s0) := hookInv_runCleanup inv0
    have hno1 : ∀ k, (((runCleanup s0)).obsFun k).observing = false :=
      runCleanup_noObserving inv0
    have hslot1 : (runCleanup s0).eff2Cleanup = none := runCleanup_eff2Cleanup_none s0
    have hcell1 : (runCleanup s0).observerCell = s.observerCell := by
      rw [runCleanup_observerCell]
    have hnext1 : (runCleanup s0).nextId = s.nextId := by
      rw [runCleanup_nextId]
    have inv2 : HookInv (createObserverEffect (runCleanup s0) s.observerCell cb
        (effectiveOpts opts).1) :=
      hookInv_createObserverEffect inv1 hcell1.symm hno1 hslot1
    have hno2 : ∀ k, ((createObserverEffect (runCleanup s0) s.observerCell cb
        (effectiveOpts opts).1).obsFun k).observing = false :=
      createObserverEffect_noObserving hno1 _ cb _
    apply hookInv_observeEffect inv2
    · rw [createObserverEffect_mounted, runCleanup_mounted]
      exact hm
    · exact hno2
    · intro o ho
      rw [createObserverEffect_nextId, hnext1]
      have hc := hInv.cellEq
      rw [ho] at hc
      by_cases h0 : s.nextId = 0
      · rw [if_pos h0] at hc; cases hc
      · rw [if_neg h0] at hc
        have : o = s.nextId - 1 := by simpa using hc
        omega
    · intro _
      rw [createObserverEffect_nextId]
      omega
    · intro o ho
      have hc := hInv.cellEq
      rw [ho] at hc
      have h0 : ¬s.nextId = 0 := by
        intro h0; rw [if_pos h0] at hc; cases hc
      have holt : o < s.nextId := by
        rw [if_neg h0] at hc
        have : o = s.nextId - 1 := by simpa using hc
        omega
      rw [createObserverEffect_obsFun, hnext1, if_neg (by omega)]
      have hobs1 : (runCleanup s0).obsFun o = s0.obsFun o := by
        apply runCleanup_obsFun_ne
        intro p hp
        have hlt := hInv.cleanupLtCell p o hp ho
        omega
      rw [hobs1]
      exact hInv.cellNotDisc o ho
    · intro o ho c hc
      rw [createObserverEffect_observerCell, hnext1] at hc
      have hcs : c = s.nextId := by simpa using hc.symm
      have hco := hInv.cellEq
      rw [ho] at hco
      have h0 : ¬s.nextId = 0 := by
        intro h0; rw [if_pos h0] at hco; cases hco
      rw [if_neg h0] at hco
      have : o = s.nextId - 1 := by simpa using hco
      omega
  · have hm' : s.mounted = false := by simpa using hm
    rw [stepRender_unmounted hm' t cb opts]
    exact hInv

/-! Case equations for notification delivery. -/

theorem stepNotify_not_observing {α : Type} {s : HookState α} {o : Nat} (b : Nat)
    (h : (s.obsFun o).observing = false) : stepNotify s o b = s := by
  simp [stepNotify, h]

theorem stepNotify_closed_none {α : Type} {s : HookState α} {o : Nat} (b : Nat)
    (ho : (s.obsFun o).observing = true)
    (hco : (s.obsFun o).closedObserver = none) :
    stepNotify s o b = { s with log := Act.deliver o b :: s.log } := by
  simp only [stepNotify, ho, if_true, handleChanges, hco]

theorem stepNotify_warn {α : Type} {s : HookState α} {o : Nat} (b : Nat) {co : Nat}
    (ho : (s.obsFun o).observing = true)
    (hco : (s.obsFun o).closedObserver = some co)
    (hcb : CbArg.isFn (s.obsFun o).closedCb = false) :
    stepNotify s o b = { s with log := Act.warn o :: Act.deliver o b :: s.log } := by
  cases hc : (s.obsFun o).closedCb with
  | fn f => rw [hc] at hcb; cases hcb
  | absent => simp only [stepNotify, ho, if_true, handleChanges, hco, hc]
  | notFn => simp only [stepNotify, ho, if_true, handleChanges, hco, hc]

theorem stepNotify_invoke_none {α : Type} {s : HookState α} {o : Nat} (b : Nat)
    {co : Nat} {f : Nat → Nat → Option α}
    (ho : (s.obsFun o).observing = true)
    (hco : (s.obsFun o).closedObserver = some co)
    (hcb : (s.obsFun o).closedCb = CbArg.fn f)
    (hres : f b co = none) :
    stepNotify s o b =
      { s with log := Act.invoke o co none :: Act.deliver o b :: s.log } := by
  simp only [stepNotify, ho, if_true, handleChanges, hco, hcb, hres]

theorem stepNotify_invoke_some {α : Type} {s : HookState α} {o : Nat} (b : Nat)
    {co : Nat} {f : Nat → Nat → Option α} {v : α}
    (ho : (s.obsFun o).observing = true)
    (hco : (s.obsFun o).closedObserver = some co)
    (hcb : (s.obsFun o).closedCb = CbArg.fn f)
    (hres : f b co = some v) :
    stepNotify s o b =
      { s with
          valueCell := some v
          log := Act.invoke o co (some v) :: Act.deliver o b :: s.log } := by
  simp only [stepNotify, ho, if_true, handleChanges, hco, hcb, hres]

/-- Invariant preservation for a state change that only adds non-disconnect,
non-defined-invoke actions to the log. -/
theorem hookInv_logSkip {α : Type} {s : HookState α} (hInv : HookInv s)
    (a : Act α) (hd : ∀ j, a ≠ Act.disconnect j)
    (hi : ∀ o arg v, a ≠ Act.invoke o arg (some v)) :
    HookInv { s with log := a :: s.log } := by
  constructor
  · exact hInv.cellEq
  · exact hInv.closedEq
  · exact hInv.frame
  · exact hInv.observingCleanup
  · exact hInv.cleanupLt
  · exact hInv.cleanupNotDisc
  · exact hInv.cleanupLtCell
  · exact hInv.cellNotDisc
  · intro k
    rw [countDisc_cons_skip _ _ _ hd]
    exact hInv.discLog k
  · exact hInv.e1prev
  · exact hInv.e2prevObs
  · exact hInv.mountedObs
  · rw [latestDefined_cons_skip _ _ hi]
    exact hInv.valueLog

theorem hookInv_stepNotify {α : Type} {s : HookState α} (hInv : HookInv s)
    (o b : Nat) : HookInv (stepNotify s o b) := by
  by_cases ho : (s.obsFun o).observing = true
  · have invd : HookInv { s with log := Act.deliver o b :: s.log } :=
      hookInv_logSkip hInv _ (by intro j h; cases h) (by intro oo arg v h; cases h)
    cases hco : (s.obsFun o).closedObserver with
    | none =>
      rw [stepNotify_closed_none b ho hco]
      exact invd
    | some co =>
      cases hcb : (s.obsFun o).closedCb with
      | absent =>
        rw [stepNotify_warn b ho hco (by rw [hcb]; rfl)]
        exact hookInv_logSkip invd _ (by intro j h; cases h)
          (by intro oo arg v h; cases h)
      | notFn =>
        rw [stepNotify_warn b ho hco (by rw [hcb]; rfl)]
        exact hookInv_logSkip invd _ (by intro j h; cases h)
          (by intro oo arg v h; cases h)
      | fn f =>
        cases hres : f b co with
        | none =>
          rw [stepNotify_invoke_none b ho hco hcb hres]
          exact hookInv_logSkip invd _ (by intro j h; cases h)
            (by intro oo arg v h; cases h)
        | some v =>
          rw [stepNotify_invoke_some b ho hco hcb hres]
          constructor
          · exact invd.cellEq
          · exact invd.closedEq
          · exact invd.frame
          · exact invd.observingCleanup
          · exact invd.cleanupLt
          · exact invd.cleanupNotDisc
          · exact invd.cleanupLtCell
          · exact invd.cellNotDisc
          · intro k
            rw [countDisc_cons_skip _ _ _ (by intro j h; cases h)]
            exact invd.discLog k
          · exact invd.e1prev
          · exact invd.e2prevObs
          · exact invd.mountedObs
          · exact (latestDefined_cons_invoke_some o co v _).symm
  · have ho' : (s.obsFun o).observing = false := by simpa using ho
    rw [stepNotify_not_observing b ho']
    exact hInv

theorem hookInv_stepUnmount {α : Type} {s : HookState α} (hInv : HookInv s) :
    HookInv (stepUnmount s) := by
  by_cases hm : s.mounted = true
  · have inv1 : HookInv (runCleanup s) := hookInv_runCleanup hInv
    have hno1 := runCleanup_noObserving hInv
    have : stepUnmount s =
        { runCleanup s with
            mounted := false
            log := Act.unmounted :: (runCleanup s).log } := by
      simp only [stepUnmount, hm, if_true]
    rw [this]
    constructor
    · exact inv1.cellEq
    · exact inv1.closedEq
    · exact inv1.frame
    · intro k hk
      rw [hno1 k] at hk
      cases hk
    · exact inv1.cleanupLt
    · exact inv1.cleanupNotDisc
    · exact inv1.cleanupLtCell
    · exact inv1.cellNotDisc
    · intro k
      rw [countDisc_cons_skip _ _ _ (by intro j h; cases h)]
      exact inv1.discLog k
    · exact inv1.e1prev
    · exact inv1.e2prevObs
    · intro _ k
      exact hno1 k
    · rw [latestDefined_cons_skip _ _ (by intro oo arg w h; cases h)]
      exact inv1.valueLog
  · have hm' : s.mounted = false := by simpa using hm
    have : stepUnmount s = s := by simp [stepUnmount, hm']
    rw [this]
    exact hInv

theorem hookInv_step {α : Type} {s : HookState α} (hInv : HookInv s)
    (e : Ev α) : HookInv (step s e) := by
  cases e with
  | render t cb cbId opts => exact hookInv_stepRender hInv t cb opts
  | notify o b => exact hookInv_stepNotify hInv o b
  | unmount => exact hookInv_stepUnmount hInv

theorem hookInv_runFrom {α : Type} {s : HookState α} (hInv : HookInv s)
    (evs : List (Ev α)) : HookInv (runFrom s evs) := by
  induction evs generalizing s with
  | nil => exact hInv
  | cons e evs ih => exact ih (hookInv_step hInv e)

theorem hookInv_run {α : Type} (evs : List (Ev α)) : HookInv (run evs) :=
  hookInv_runFrom (inv_initState α) evs

/-! After unmount the binding is inert. -/

theorem step_of_unmounted {α : Type} {s : HookState α} (hInv : HookInv s)
    (hm : s.mounted = false) (e : Ev α) : step s e = s := by
  cases e with
  | render t cb cbId opts => exact stepRender_unmounted hm t cb opts
  | notify o b => exact stepNotify_not_observing b (hInv.mountedObs hm o)
  | unmount => simp [step, stepUnmount, hm]

theorem runFrom_of_unmounted {α : Type} {s : HookState α} (hInv : HookInv s)
    (hm : s.mounted = false) (evs : List (Ev α)) : runFrom s evs = s := by
  induction evs with
  | nil => rfl
  | cons e evs ih =>
    show runFrom (step s e) evs = s
    rw [step_of_unmounted hInv hm e]
    exact ih

/-! Counting helpers. -/

theorem countP_le_one_of_unique {l : List Nat} {p : Nat → Bool} {c : Nat}
    (hu : ∀ k, p k = true → k = c) (hn : l.Nodup) : l.countP p ≤ 1 := by
  induction l with
  | nil => simp
  | cons a l ih =>
    rw [List.countP_cons]
    rcases List.nodup_cons.mp hn with ⟨ha, hn'⟩
    by_cases hp : p a = true
    · have hzero : l.countP p = 0 := by
        rw [List.countP_eq_zero]
        intro k hk hpk
        have hka : k = a := (hu k hpk).trans (hu a hp).symm
        rw [hka] at hk
        exact ha hk
      rw [hzero, if_pos hp]
    · rw [if_neg hp]
      simpa using ih hn'

theorem countP_eq_one_of_unique {l : List Nat} {p : Nat → Bool} {c : Nat}
    (hu : ∀ k, p k = true → k = c) (hc : p c = true) (hmem : c ∈ l)
    (hn : l.Nodup) : l.countP p = 1 := by
  have hle := countP_le_one_of_unique hu hn
  have hge : 1 ≤ l.countP p := by
    rw [List.one_le_countP_iff]
    exact ⟨c, hmem, hc⟩
  omega

theorem countObserving_le_one {α : Type} {s : HookState α} (hInv : HookInv s) :
    countObserving s ≤ 1 := by
  unfold countObserving
  cases hc : s.eff2Cleanup with
  | none =>
    have : ∀ k, ((s.obsFun k).observing) = false := by
      intro k
      by_cases hk : (s.obsFun k).observing = true
      · rw [hInv.observingCleanup k hk] at hc
        cases hc
      · simpa using hk
    rw [List.countP_eq_zero.mpr (by intro k _ hk; rw [this k] at hk; cases hk)]
    omega
  | some c =>
    exact countP_le_one_of_unique
      (fun k hk => by
        have := hInv.observingCleanup k hk
        rw [hc] at this
        exact (Option.some_injective _ this).symm)
      (List.nodup_range _)

theorem countObserving_eq_zero {α : Type} {s : HookState α}
    (hno : ∀ k, (s.obsFun k).observing = false) : countObserving s = 0 := by
  unfold countObserving
  rw [List.countP_eq_zero]
  intro k _ hk
  rw [hno k] at hk
  cases hk

theorem countObserving_eq_one {α : Type} {s : HookState α} (hInv : HookInv s)
    {o : Nat} (ho : (s.obsFun o).observing = true) : countObserving s = 1 := by
  have hc := hInv.observingCleanup o ho
  have holt : o < s.nextId := hInv.cleanupLt o hc
  unfold countObserving
  exact countP_eq_one_of_unique
    (fun k hk => by
      have := hInv.observingCleanup k hk
      rw [hc] at this
      exact (Option.some_injective _ this).symm)
    (by simpa using ho)
    (List.mem_range.mpr holt)
    (List.nodup_range _)

/-! Per-counter cons lemmas. -/

theorem countCreate_cons_create {α : Type} (o : Nat) (l : List (Act α)) :
    countCreate (Act.create o :: l) = countCreate l + 1 := by
  simp [countCreate, List.countP_cons]

theorem countCreate_cons_skip {α : Type} (a : Act α) (l : List (Act α))
    (h : ∀ j, a ≠ Act.create j) : countCreate (a :: l) = countCreate l := by
  cases a
  case create j => exact absurd rfl (h j)
  all_goals simp [countCreate, List.countP_cons]

theorem countWarn_cons_warn {α : Type} (o : Nat) (l : List (Act α)) :
    countWarn (Act.warn o :: l) = countWarn l + 1 := by
  simp [countWarn, List.countP_cons]

theorem countWarn_cons_skip {α : Type} (a : Act α) (l : List (Act α))
    (h : ∀ j, a ≠ Act.warn j) : countWarn (a :: l) = countWarn l := by
  cases a
  case warn j => exact absurd rfl (h j)
  all_goals simp [countWarn, List.countP_cons]

theorem countInvoke_cons_skip {α : Type} (a : Act α) (l : List (Act α))
    (h : ∀ j arg res, a ≠ Act.invoke j arg res) :
    countInvoke (a :: l) = countInvoke l := by
  cases a
  case invoke j arg res => exact absurd rfl (h j arg res)
  all_goals simp [countInvoke, List.countP_cons]

theorem countObserveOk_cons_ok {α : Type} (o t : Nat)
    (opts : MutationObserverOptions) (l : List (Act α)) :
    countObserveOk (Act.observeOk o t opts :: l) = countObserveOk l + 1 := by
  simp [countObserveOk, List.countP_cons]

theorem countObserveOk_cons_skip {α : Type} (a : Act α) (l : List (Act α))
    (h : ∀ j t opts, a ≠ Act.observeOk j t opts) :
    countObserveOk (a :: l) = countObserveOk l := by
  cases a
  case observeOk j t opts => exact absurd rfl (h j t opts)
  all_goals simp [countObserveOk, List.countP_cons]

theorem countObserveErr_cons_err {α : Type} (o : Nat) (l : List (Act α)) :
    countObserveErr (Act.observeErr o :: l) = countObserveErr l + 1 := by
  simp [countObserveErr, List.countP_cons]

theorem countObserveErr_cons_skip {α : Type} (a : Act α) (l : List (Act α))
    (h : ∀ j, a ≠ Act.observeErr j) :
    countObserveErr (a :: l) = countObserveErr l := by
  cases a
  case observeErr j => exact absurd rfl (h j)
  all_goals simp [countObserveErr, List.countP_cons]

theorem countDiscAll_cons_disconnect {α : Type} (o : Nat) (l : List (Act α)) :
    countDiscAll (Act.disconnect o :: l) = countDiscAll l + 1 := by
  simp [countDiscAll, List.countP_cons]

theorem countDiscAll_cons_skip {α : Type} (a : Act α) (l : List (Act α))
    (h : ∀ j, a ≠ Act.disconnect j) : countDiscAll (a :: l) = countDiscAll l := by
  cases a
  case disconnect j => exact absurd rfl (h j)
  all_goals simp [countDiscAll, List.countP_cons]

/-! Projection lemmas for the observe effect. -/

theorem observeEffect_valueCell {α : Type} (s : HookState α) (obsR : Option Nat)
    (t : Option Target) (oid : Option Nat) (opts : MutationObserverOptions) :
    (observeEffect s obsR t oid opts).valueCell = s.valueCell := by
  cases obsR with
  | none => cases t <;> rfl
  | some o =>
    cases t with
    | none => rfl
    | some tt =>
      by_cases hv : tt.valid = true
      · simp only [observeEffect, if_pos hv]
        rfl
      · simp only [observeEffect, if_neg hv]

theorem observeEffect_observerCell {α : Type} (s : HookState α) (obsR : Option Nat)
    (t : Option Target) (oid : Option Nat) (opts : MutationObserverOptions) :
    (observeEffect s obsR t oid opts).observerCell = s.observerCell := by
  cases obsR with
  | none => cases t <;> rfl
  | some o =>
    cases t with
    | none => rfl
    | some tt =>
      by_cases hv : tt.valid = true
      · simp only [observeEffect, if_pos hv]
        rfl
      · simp only [observeEffect, if_neg hv]

theorem observeEffect_nextId {α : Type} (s : HookState α) (obsR : Option Nat)
    (t : Option Target) (oid : Option Nat) (opts : MutationObserverOptions) :
    (observeEffect s obsR t oid opts).nextId = s.nextId := by
  cases obsR with
  | none => cases t <;> rfl
  | some o =>
    cases t with
    | none => rfl
    | some tt =>
      by_cases hv : tt.valid = true
      · simp only [observeEffect, if_pos hv]
        rfl
      · simp only [observeEffect, if_neg hv]

theorem observeEffect_mounted {α : Type} (s : HookState α) (obsR : Option Nat)
    (t : Option Target) (oid : Option Nat) (opts : MutationObserverOptions) :
    (observeEffect s obsR t oid opts).mounted = s.mounted := by
  cases obsR with
  | none => cases t <;> rfl
  | some o =>
    cases t with
    | none => rfl
    | some tt =>
      by_cases hv : tt.valid = true
      · simp only [observeEffect, if_pos hv]
        rfl
      · simp only [observeEffect, if_neg hv]

theorem observeEffect_log_noObs {α : Type} (s : HookState α)
    (t : Option Target) (oid : Option Nat) (opts : MutationObserverOptions) :
    (observeEffect s none t oid opts).log = s.log := by
  cases t <;> rfl

theorem observeEffect_log_noTarget {α : Type} (s : HookState α)
    (obsR : Option Nat) (oid : Option Nat) (opts : MutationObserverOptions) :
    (observeEffect s obsR none oid opts).log = s.log := by
  cases obsR <;> rfl

theorem observeEffect_log_ok {α : Type} (s : HookState α) (o : Nat) (tt : Target)
    (oid : Option Nat) (opts : MutationObserverOptions) (hv : tt.valid = true) :
    (observeEffect s (some o) (some tt) oid opts).log =
      Act.observeOk o tt.id opts :: s.log := by
  simp only [observeEffect, if_pos hv]

theorem observeEffect_log_err {α : Type} (s : HookState α) (o : Nat) (tt : Target)
    (oid : Option Nat) (opts : MutationObserverOptions) (hv : tt.valid = false) :
    (observeEffect s (some o) (some tt) oid opts).log =
      Act.observeErr o :: s.log := by
  simp only [observeEffect, hv]
  rfl

theorem observeEffect_obsFun_ok {α : Type} (s : HookState α) (o : Nat) (tt : Target)
    (oid : Option Nat) (opts : MutationObserverOptions) (hv : tt.valid = true)
    (k : Nat) :
    (observeEffect s (some o) (some tt) oid opts).obsFun k =
      if k = o then { s.obsFun o with observing := true } else s.obsFun k := by
  simp only [observeEffect, if_pos hv, setObs]

theorem observeEffect_obsFun_err {α : Type} (s : HookState α) (o : Nat) (tt : Target)
    (oid : Option Nat) (opts : MutationObserverOptions) (hv : tt.valid = false)
    (k : Nat) :
    (observeEffect s (some o) (some tt) oid opts).obsFun k = s.obsFun k := by
  simp only [observeEffect, hv]
  rfl

theorem observeEffect_obsFun_noObs {α : Type} (s : HookState α)
    (t : Option Target) (oid : Option Nat) (opts : MutationObserverOptions)
    (k : Nat) : (observeEffect s none t oid opts).obsFun k = s.obsFun k := by
  cases t <;> rfl

theorem observeEffect_obsFun_noTarget {α : Type} (s : HookState α)
    (obsR : Option Nat) (oid : Option Nat) (opts : MutationObserverOptions)
    (k : Nat) : (observeEffect s obsR none oid opts).obsFun k = s.obsFun k := by
  cases obsR <;> rfl

theorem observeEffect_eff2Cleanup_some {α : Type} (s : HookState α) (o : Nat)
    (tt : Target) (oid : Option Nat) (opts : MutationObserverOptions) :
    (observeEffect s (some o) (some tt) oid opts).eff2Cleanup = some o := by
  simp only [observeEffect]

/-! Count transport through the phases. -/

theorem createObserverEffect_valueCell {α : Type} (s : HookState α)
    (obsR : Option Nat) (cb : CbArg α) (oid : Option Nat) :
    (createObserverEffect s obsR cb oid).valueCell = s.valueCell := rfl

theorem observeEffect_countCreate {α : Type} (s : HookState α) (obsR : Option Nat)
    (t : Option Target) (oid : Option Nat) (opts : MutationObserverOptions) :
    countCreate (observeEffect s obsR t oid opts).log = countCreate s.log := by
  cases obsR with
  | none => rw [observeEffect_log_noObs]
  | some o =>
    cases t with
    | none => rw [observeEffect_log_noTarget]
    | some tt =>
      by_cases hv : tt.valid = true
      · rw [observeEffect_log_ok s o tt oid opts hv]
        exact countCreate_cons_skip _ _ (by intro j h; cases h)
      · rw [observeEffect_log_err s o tt oid opts (by simpa using hv)]
        exact countCreate_cons_skip _ _ (by intro j h; cases h)

theorem observeEffect_countDiscAll {α : Type} (s : HookState α) (obsR : Option Nat)
    (t : Option Target) (oid : Option Nat) (opts : MutationObserverOptions) :
    countDiscAll (observeEffect s obsR t oid opts).log = countDiscAll s.log := by
  cases obsR with
  | none => rw [observeEffect_log_noObs]
  | some o =>
    cases t with
    | none => rw [observeEffect_log_noTarget]
    | some tt =>
      by_cases hv : tt.valid = true
      · rw [observeEffect_log_ok s o tt oid opts hv]
        exact countDiscAll_cons_skip _ _ (by intro j h; cases h)
      · rw [observeEffect_log_err s o tt oid opts (by simpa using hv)]
        exact countDiscAll_cons_skip _ _ (by intro j h; cases h)

theorem runCleanup_countCreate {α : Type} (s : HookState α) :
    countCreate (runCleanup s).log = countCreate s.log := by
  cases h : s.eff2Cleanup with
  | none => rw [runCleanup_eq_none s h]
  | some p =>
    rw [runCleanup_eq_some s p h]
    simp only [disconnectObs, setObs]
    exact countCreate_cons_skip _ _ (by intro j hj; cases hj)

theorem runCleanup_countDiscAll {α : Type} (s : HookState α) :
    countDiscAll (runCleanup s).log =
      countDiscAll s.log + (if s.eff2Cleanup.isSome then 1 else 0) := by
  cases h : s.eff2Cleanup with
  | none =>
    rw [runCleanup_eq_none s h]
    simp [h]
  | some p =>
    rw [runCleanup_eq_some s p h]
    simp only [disconnectObs, setObs]
    rw [countDiscAll_cons_disconnect]
    simp [h]

/-! Composite facts about one mounted render commit. -/

theorem stepRender_nextId {α : Type} {s : HookState α} (hInv : HookInv s)
    (hm : s.mounted = true) (t : Option Target) (cb : CbArg α)
    (opts : Option OptsArg) :
    (stepRender s t cb opts).nextId = s.nextId + 1 := by
  rw [stepRender_eq hInv hm t cb opts, observeEffect_nextId,
    createObserverEffect_nextId, runCleanup_nextId]

theorem stepRender_observerCell {α : Type} {s : HookState α} (hInv : HookInv s)
    (hm : s.mounted = true) (t : Option Target) (cb : CbArg α)
    (opts : Option OptsArg) :
    (stepRender s t cb opts).observerCell = some s.nextId := by
  rw [stepRender_eq hInv hm t cb opts, observeEffect_observerCell,
    createObserverEffect_observerCell, runCleanup_nextId]

theorem stepRender_valueCell {α : Type} {s : HookState α} (hInv : HookInv s)
    (hm : s.mounted = true) (t : Option Target) (cb : CbArg α)
    (opts : Option OptsArg) :
    (stepRender s t cb opts).valueCell = s.valueCell := by
  rw [stepRender_eq hInv hm t cb opts, observeEffect_valueCell,
    createObserverEffect_valueCell, runCleanup_valueCell]

theorem stepRender_mounted {α : Type} {s : HookState α} (hInv : HookInv s)
    (hm : s.mounted = true) (t : Option Target) (cb : CbArg α)
    (opts : Option OptsArg) :
    (stepRender s t cb opts).mounted = true := by
  rw [stepRender_eq hInv hm t cb opts, observeEffect_mounted,
    createObserverEffect_mounted, runCleanup_mounted]
  exact hm

theorem stepRender_countCreate {α : Type} {s : HookState α} (hInv : HookInv s)
    (hm : s.mounted = true) (t : Option Target) (cb : CbArg α)
    (opts : Option OptsArg) :
    countCreate (stepRender s t cb opts).log = countCreate s.log + 1 := by
  rw [stepRender_eq hInv hm t cb opts, observeEffect_countCreate,
    createObserverEffect_log, countCreate_cons_create, runCleanup_countCreate]
  rw [countCreate_cons_skip _ _ (by intro j h; cases h)]

theorem stepRender_countDiscAll {α : Type} {s : HookState α} (hInv : HookInv s)
    (hm : s.mounted = true) (t : Option Target) (cb : CbArg α)
    (opts : Option OptsArg) :
    countDiscAll (stepRender s t cb opts).log =
      countDiscAll s.log + (if s.eff2Cleanup.isSome then 1 else 0) := by
  rw [stepRender_eq hInv hm t cb opts, observeEffect_countDiscAll,
    createObserverEffect_log,
    countDiscAll_cons_skip _ _ (by intro j h; cases h),
    runCleanup_countDiscAll,
    countDiscAll_cons_skip _ _ (by intro j h; cases h)]

theorem observeEffect_obsFun_ne {α : Type} (s : HookState α) (obsR : Option Nat)
    (t : Option Target) (oid : Option Nat) (opts : MutationObserverOptions)
    (k : Nat) (h : ∀ o, obsR = some o → ¬k = o) :
    (observeEffect s obsR t oid opts).obsFun k = s.obsFun k := by
  cases obsR with
  | none => exact observeEffect_obsFun_noObs s t oid opts k
  | some o =>
    cases t with
    | none => exact observeEffect_obsFun_noTarget s (some o) oid opts k
    | some tt =>
      by_cases hv : tt.valid = true
      · rw [observeEffect_obsFun_ok _ _ _ _ _ hv, if_neg (h o rfl)]
      · rw [observeEffect_obsFun_err _ _ _ _ _ (by simpa using hv)]

theorem cell_ne_nextId {α : Type} {s : HookState α} (hInv : HookInv s) :
    ∀ o, s.observerCell = some o → ¬s.nextId = o := by
  intro o ho
  have hco := hInv.cellEq
  rw [ho] at hco
  have h0 : ¬s.nextId = 0 := by
    intro h0; rw [if_pos h0] at hco; cases hco
  rw [if_neg h0] at hco
  have : o = s.nextId - 1 := by simpa using hco
  omega

theorem stepRender_new_rec {α : Type} {s : HookState α} (hInv : HookInv s)
    (hm : s.mounted = true) (t : Option Target) (cb : CbArg α)
    (opts : Option OptsArg) :
    (stepRender s t cb opts).obsFun s.nextId =
      ⟨s.observerCell, cb, false, false⟩ := by
  rw [stepRender_eq hInv hm t cb opts,
    observeEffect_obsFun_ne _ _ _ _ _ _ (cell_ne_nextId hInv),
    createObserverEffect_obsFun, runCleanup_nextId]
  simp

theorem stepRender_observing_ok {α : Type} {s : HookState α} (hInv : HookInv s)
    (hm : s.mounted = true) {o : Nat} (ho : s.observerCell = some o)
    (tt : Target) (hv : tt.valid = true) (cb : CbArg α) (opts : Option OptsArg) :
    ((stepRender s (some tt) cb opts).obsFun o).observing = true := by
  rw [stepRender_eq hInv hm (some tt) cb opts, ho,
    observeEffect_obsFun_ok _ _ _ _ _ hv, if_pos rfl]

theorem observeEffect_obsFun_noValid {α : Type} (s : HookState α)
    (obsR : Option Nat) (tt : Target) (oid : Option Nat)
    (opts : MutationObserverOptions) (hv : tt.valid = false) (k : Nat) :
    (observeEffect s obsR (some tt) oid opts).obsFun k = s.obsFun k := by
  cases obsR with
  | none => exact observeEffect_obsFun_noObs s (some tt) oid opts k
  | some o => exact observeEffect_obsFun_err s o tt oid opts hv k

theorem stepRender_noObserving_err {α : Type} {s : HookState α} (hInv : HookInv s)
    (hm : s.mounted = true) (tt : Target) (hv : tt.valid = false) (cb : CbArg α)
    (opts : Option OptsArg) :
    ∀ k, ((stepRender s (some tt) cb opts).obsFun k).observing = false := by
  intro k
  rw [stepRender_eq hInv hm (some tt) cb opts,
    observeEffect_obsFun_noValid _ _ _ _ _ hv]
  apply createObserverEffect_noObserving
  exact runCleanup_noObserving (hookInv_renderBump hInv s.valueCell s.observerCell)

theorem runCleanup_log_suffix {α : Type} (s : HookState α) :
    ∃ l, (runCleanup s).log = l ++ s.log := by
  cases h : s.eff2Cleanup with
  | none => exact ⟨[], by rw [runCleanup_eq_none s h]; simp⟩
  | some p =>
    refine ⟨[Act.disconnect p], ?_⟩
    rw [runCleanup_eq_some s p h]
    simp [disconnectObs, setObs]

theorem observeEffect_log_suffix {α : Type} (s : HookState α) (obsR : Option Nat)
    (t : Option Target) (oid : Option Nat) (opts : MutationObserverOptions) :
    ∃ l, (observeEffect s obsR t oid opts).log = l ++ s.log := by
  cases obsR with
  | none => exact ⟨[], by rw [observeEffect_log_noObs]; simp⟩
  | some o =>
    cases t with
    | none => exact ⟨[], by rw [observeEffect_log_noTarget]; simp⟩
    | some tt =>
      by_cases hv : tt.valid = true
      · exact ⟨[Act.observeOk o tt.id opts],
          by rw [observeEffect_log_ok s o tt oid opts hv]; simp⟩
      · exact ⟨[Act.observeErr o],
          by rw [observeEffect_log_err s o tt oid opts (by simpa using hv)]; simp⟩

theorem stepRender_log_suffix {α : Type} {s : HookState α} (hInv : HookInv s)
    (hm : s.mounted = true) (t : Option Target) (cb : CbArg α)
    (opts : Option OptsArg) :
    ∃ l, (stepRender s t cb opts).log =
      l ++ Act.rendered s.valueCell s.observerCell :: s.log := by
  rw [stepRender_eq hInv hm t cb opts]
  obtain ⟨l2, hl2⟩ := observeEffect_log_suffix
    (createObserverEffect
      (runCleanup { s with
          renderCount := s.renderCount + 1
          log := Act.rendered s.valueCell s.observerCell :: s.log })
      s.observerCell cb (effectiveOpts opts).1)
    s.observerCell t (effectiveOpts opts).1 (effectiveOpts opts).2
  obtain ⟨l1, hl1⟩ := runCleanup_log_suffix
    { s with
        renderCount := s.renderCount + 1
        log := Act.rendered s.valueCell s.observerCell :: s.log }
  refine ⟨l2 ++ Act.create (runCleanup { s with
      renderCount := s.renderCount + 1
      log := Act.rendered s.valueCell s.observerCell :: s.log }).nextId :: l1, ?_⟩
  rw [hl2, createObserverEffect_log, hl1]
  simp

theorem runCleanup_countObserveErr {α : Type} (s : HookState α) :
    countObserveErr (runCleanup s).log = countObserveErr s.log := by
  cases h : s.eff2Cleanup with
  | none => rw [runCleanup_eq_none s h]
  | some p =>
    rw [runCleanup_eq_some s p h]
    simp only [disconnectObs, setObs]
    exact countObserveErr_cons_skip _ _ (by intro j hj; cases hj)

theorem runCleanup_countObserveOk {α : Type} (s : HookState α) :
    countObserveOk (runCleanup s).log = countObserveOk s.log := by
  cases h : s.eff2Cleanup with
  | none => rw [runCleanup_eq_none s h]
  | some p =>
    rw [runCleanup_eq_some s p h]
    simp only [disconnectObs, setObs]
    exact countObserveOk_cons_skip _ _ (by intro j t opts hj; cases hj)

/-! Settling the claims. -/

/-- The value cell after a delivery, in terms of the delivered defined
result. -/
theorem stepNotify_value_eq {α : Type} (s : HookState α) (o b : Nat) :
    (stepNotify s o b).valueCell =
      match deliveredDefinedResult s o b with
      | some v => some v
      | none => s.valueCell := by
  by_cases ho : (s.obsFun o).observing = true
  · cases hco : (s.obsFun o).closedObserver with
    | none =>
      have hd : deliveredDefinedResult s o b = none := by
        simp [deliveredDefinedResult, ho, hco]
      rw [hd, stepNotify_closed_none b ho hco]
    | some co =>
      cases hcb : (s.obsFun o).closedCb with
      | absent =>
        have hd : deliveredDefinedResult s o b = none := by
          simp [deliveredDefinedResult, ho, hco, hcb]
        rw [hd, stepNotify_warn b ho hco (by rw [hcb]; rfl)]
      | notFn =>
        have hd : deliveredDefinedResult s o b = none := by
          simp [deliveredDefinedResult, ho, hco, hcb]
        rw [hd, stepNotify_warn b ho hco (by rw [hcb]; rfl)]
      | fn f =>
        have hd : deliveredDefinedResult s o b = f b co := by
          simp [deliveredDefinedResult, ho, hco, hcb]
        rw [hd]
        cases hres : f b co with
        | none => rw [stepNotify_invoke_none b ho hco hcb hres]
        | some v => rw [stepNotify_invoke_some b ho hco hcb hres]
  · have ho' : (s.obsFun o).observing = false := by simpa using ho
    have hd : deliveredDefinedResult s o b = none := by
      simp [deliveredDefinedResult, ho']
    rw [hd, stepNotify_not_observing b ho']

/-- C3 (confirmed): for every notification batch, the stored derived value is
replaced exactly when the transform produced a defined result — in that case
it becomes that result — and an undefined (or absent) result leaves the
previously stored value unchanged. -/
theorem claim3_value_replaced_only_when_defined {α : Type} (s : HookState α)
    (o b : Nat) :
    (stepNotify s o b).valueCell =
      match deliveredDefinedResult s o b with
      | some v => some v
      | none => s.valueCell :=
  stepNotify_value_eq s o b

/-- C10 (confirmed): a batch delivered through a handle whose `handleChanges`
closure closed over a null `observer` state is silently dropped — the state
is unchanged except for the delivery itself: no transform invocation, no
value update, and no warning.  The first handle ever created is exactly such
a handle. -/
theorem claim10_null_closure_batch_dropped {α : Type} (evs : List (Ev α))
    (o b : Nat) (hob : ((run evs).obsFun o).observing = true)
    (hco : ((run evs).obsFun o).closedObserver = none) :
    step (run evs) (Ev.notify o b) =
      { run evs with log := Act.deliver o b :: (run evs).log } ∧
    (step (run evs) (Ev.notify o b)).valueCell = (run evs).valueCell ∧
    countWarn (step (run evs) (Ev.notify o b)).log = countWarn (run evs).log ∧
    countInvoke (step (run evs) (Ev.notify o b)).log =
      countInvoke (run evs).log ∧
    (0 < (run evs).nextId → ((run evs).obsFun 0).closedObserver = none) := by
  have hstep : step (run evs) (Ev.notify o b) =
      { run evs with log := Act.deliver o b :: (run evs).log } :=
    stepNotify_closed_none b hob hco
  refine ⟨hstep, by rw [hstep], ?_, ?_, ?_⟩
  · rw [hstep]
    exact countWarn_cons_skip _ _ (by intro j h; cases h)
  · rw [hstep]
    exact countInvoke_cons_skip _ _ (by intro j arg res h; cases h)
  · intro h0
    have := (hookInv_run evs).closedEq 0 h0
    simpa using this

/-- Witness trace for C10: two renders with a valid target and a valid
transform, so handle 0 (which closed over the initial null `observer`) is
actively observing. -/
def w10ev : List (Ev Nat) :=
  [Ev.render (some ⟨1, true⟩) (CbArg.fn fun b _ => some b) 5 none,
   Ev.render (some ⟨1, true⟩) (CbArg.fn fun b _ => some b) 5 none]

theorem claim10_witness :
    ((run w10ev).obsFun 0).observing = true ∧
    ((run w10ev).obsFun 0).closedObserver = none ∧
    (step (run w10ev) (Ev.notify 0 7)).valueCell = (run w10ev).valueCell :=
  ⟨by decide, by decide,
    (claim10_null_closure_batch_dropped w10ev 0 7 (by decide) (by decide)).2.1⟩

/-! Field-preservation lemmas used by the remaining claims. -/

theorem runCleanup_closedCb {α : Type} (s : HookState α) (k : Nat) :
    ((runCleanup s).obsFun k).closedCb = (s.obsFun k).closedCb := by
  cases h : s.eff2Cleanup with
  | none => rw [runCleanup_eq_none s h]
  | some p =>
    rw [runCleanup_eq_some s p h]
    simp only [disconnectObs, setObs]
    by_cases hk : k = p
    · subst hk; simp
    · rw [if_neg hk]

theorem observeEffect_closedCb {α : Type} (s : HookState α) (obsR : Option Nat)
    (t : Option Target) (oid : Option Nat) (opts : MutationObserverOptions)
    (k : Nat) :
    ((observeEffect s obsR t oid opts).obsFun k).closedCb =
      (s.obsFun k).closedCb := by
  cases obsR with
  | none => rw [observeEffect_obsFun_noObs]
  | some o =>
    cases t with
    | none => rw [observeEffect_obsFun_noTarget]
    | some tt =>
      by_cases hv : tt.valid = true
      · rw [observeEffect_obsFun_ok _ _ _ _ _ hv]
        by_cases hk : k = o
        · subst hk; simp
        · rw [if_neg hk]
      · rw [observeEffect_obsFun_err _ _ _ _ _ (by simpa using hv)]

theorem stepRender_closedCb {α : Type} {s : HookState α} (hInv : HookInv s)
    (hm : s.mounted = true) (t : Option Target) (cb : CbArg α)
    (opts : Option OptsArg) (k : Nat) :
    ((stepRender s t cb opts).obsFun k).closedCb =
      if k = s.nextId then cb else (s.obsFun k).closedCb := by
  rw [stepRender_eq hInv hm t cb opts, observeEffect_closedCb]
  by_cases hk : k = s.nextId
  · subst hk
    rw [createObserverEffect_obsFun, runCleanup_nextId]
    simp
  · rw [createObserverEffect_obsFun, runCleanup_nextId, if_neg hk,
      runCleanup_closedCb, if_neg hk]

theorem stepNotify_obsFun {α : Type} (s : HookState α) (o b : Nat) :
    (stepNotify s o b).obsFun = s.obsFun := by
  by_cases ho : (s.obsFun o).observing = true
  · cases hco : (s.obsFun o).closedObserver with
    | none => rw [stepNotify_closed_none b ho hco]
    | some co =>
      cases hcb : (s.obsFun o).closedCb with
      | absent => rw [stepNotify_warn b ho hco (by rw [hcb]; rfl)]
      | notFn => rw [stepNotify_warn b ho hco (by rw [hcb]; rfl)]
      | fn f =>
        cases hres : f b co with
        | none => rw [stepNotify_invoke_none b ho hco hcb hres]
        | some v => rw [stepNotify_invoke_some b ho hco hcb hres]
  · rw [stepNotify_not_observing b (by simpa using ho)]

theorem stepUnmount_valueCell {α : Type} (s : HookState α) :
    (stepUnmount s).valueCell = s.valueCell := by
  by_cases hm : s.mounted = true
  · simp only [stepUnmount, hm, if_true]
    exact runCleanup_valueCell s
  · simp [stepUnmount, hm]

theorem stepUnmount_closedCb {α : Type} (s : HookState α) (k : Nat) :
    ((stepUnmount s).obsFun k).closedCb = (s.obsFun k).closedCb := by
  by_cases hm : s.mounted = true
  · simp only [stepUnmount, hm, if_true]
    exact runCleanup_closedCb s k
  · simp [stepUnmount, hm]

/-- Counterexample trace for C4: the transform is absent at every render, a
valid target is supplied, and a batch is delivered through the first handle
(observing after the second commit). -/
def cex4ev : List (Ev Nat) :=
  [Ev.render (some ⟨1, true⟩) CbArg.absent 0 none,
   Ev.render (some ⟨1, true⟩) CbArg.absent 0 none,
   Ev.notify 0 7]

/-- C4 (counterexample): with the transform absent, a batch is delivered yet
no diagnostic warning is emitted — the delivery went through the first
handle, whose closure closed over the null initial `observer` state and is
dropped silently, contradicting "for every delivered mutation batch a
diagnostic warning is emitted". -/
theorem claim4_counterexample :
    countDeliver (run cex4ev).log = 1 ∧ countWarn (run cex4ev).log = 0 ∧
    (run cex4ev).valueCell = none := by decide

/-- C4 (amended): if the supplied transform is absent or not callable, a
delivered batch whose handle closed over a non-null `observer` state emits
exactly one warning and skips value derivation, while a batch whose handle
closed over the null initial state is dropped with no warning at all; in
both cases, and over any whole trace without a callable transform, the output
value remains `undefined`. -/
theorem claim4_amended {α : Type} :
    (∀ (s : HookState α) (o b co : Nat),
      (s.obsFun o).observing = true →
      (s.obsFun o).closedObserver = some co →
      CbArg.isFn (s.obsFun o).closedCb = false →
      (stepNotify s o b).log = Act.warn o :: Act.deliver o b :: s.log ∧
      (stepNotify s o b).valueCell = s.valueCell) ∧
    (∀ (s : HookState α) (o b : Nat),
      (s.obsFun o).observing = true →
      (s.obsFun o).closedObserver = none →
      (stepNotify s o b).log = Act.deliver o b :: s.log ∧
      countWarn (stepNotify s o b).log = countWarn s.log) ∧
    (∀ evs : List (Ev α), (∀ e ∈ evs, noFnEv e) → (run evs).valueCell = none) := by
  refine ⟨?_, ?_, ?_⟩
  · intro s o b co ho hco hcb
    rw [stepNotify_warn b ho hco hcb]
    exact ⟨rfl, rfl⟩
  · intro s o b ho hco
    rw [stepNotify_closed_none b ho hco]
    refine ⟨rfl, ?_⟩
    exact countWarn_cons_skip _ _ (by intro j h; cases h)
  · intro evs hno
    have aux : ∀ (evs2 : List (Ev α)) (s : HookState α), HookInv s →
        s.valueCell = none →
        (∀ k, CbArg.isFn (s.obsFun k).closedCb = false) →
        (∀ e ∈ evs2, noFnEv e) →
        (runFrom s evs2).valueCell = none := by
      intro evs2
      induction evs2 with
      | nil => intro s _ hv _ _; exact hv
      | cons e evs2 ih =>
        intro s hInv hv hcb hall
        have he : noFnEv e := hall e (by simp)
        have hall' : ∀ e2 ∈ evs2, noFnEv e2 := by
          intro e2 h2; exact hall e2 (by simp [h2])
        show (runFrom (step s e) evs2).valueCell = none
        apply ih (step s e) (hookInv_step hInv e)
        · cases e with
          | render t cb cbId opts =>
            by_cases hm : s.mounted = true
            · rw [show step s (Ev.render t cb cbId opts) = stepRender s t cb opts
                from rfl, stepRender_valueCell hInv hm t cb opts]
              exact hv
            · rw [show step s (Ev.render t cb cbId opts) = stepRender s t cb opts
                from rfl, stepRender_unmounted (by simpa using hm) t cb opts]
              exact hv
          | notify o b =>
            show (stepNotify s o b).valueCell = none
            rw [stepNotify_value_eq s o b]
            have hd : deliveredDefinedResult s o b = none := by
              unfold deliveredDefinedResult
              by_cases ho : (s.obsFun o).observing = true
              · rw [if_pos ho]
                cases hcc : (s.obsFun o).closedObserver with
                | none => rfl
                | some co =>
                  cases hcb2 : (s.obsFun o).closedCb with
                  | absent => rfl
                  | notFn => rfl
                  | fn f =>
                    have := hcb o
                    rw [hcb2] at this
                    cases this
              · rw [if_neg ho]
            rw [hd]
            exact hv
          | unmount =>
            show (stepUnmount s).valueCell = none
            rw [stepUnmount_valueCell]
            exact hv
        · intro k
          cases e with
          | render t cb cbId opts =>
            by_cases hm : s.mounted = true
            · rw [show step s (Ev.render t cb cbId opts) = stepRender s t cb opts
                from rfl, stepRender_closedCb hInv hm t cb opts k]
              by_cases hk : k = s.nextId
              · rw [if_pos hk]
                exact he
              · rw [if_neg hk]
                exact hcb k
            · rw [show step s (Ev.render t cb cbId opts) = stepRender s t cb opts
                from rfl, stepRender_unmounted (by simpa using hm) t cb opts]
              exact hcb k
          | notify o b =>
            show CbArg.isFn ((stepNotify s o b).obsFun k).closedCb = false
            rw [stepNotify_obsFun]
            exact hcb k
          | unmount =>
            show CbArg.isFn ((stepUnmount s).obsFun k).closedCb = false
            rw [stepUnmount_closedCb]
            exact hcb k
        · exact hall'
    exact aux evs (initState α) (inv_initState α) rfl
      (by intro k; rfl) hno

/-- Witness trace for the amended C4: three renders with a non-function
callback and a valid target, so handle 1 (closing over handle 0) is
observing. -/
def w4ev : List (Ev Nat) :=
  [Ev.render (some ⟨1, true⟩) CbArg.notFn 0 none,
   Ev.render (some ⟨1, true⟩) CbArg.notFn 0 none,
   Ev.render (some ⟨1, true⟩) CbArg.notFn 0 none]

theorem claim4_amended_witness :
    ((run w4ev).obsFun 1).observing = true ∧
    ((run w4ev).obsFun 1).closedObserver = some 0 ∧
    CbArg.isFn ((run w4ev).obsFun 1).closedCb = false ∧
    (stepNotify (run w4ev) 1 9).log =
      Act.warn 1 :: Act.deliver 1 9 :: (run w4ev).log :=
  ⟨by decide, by decide, by decide,
    ((claim4_amended.1 (run w4ev) 1 9 0 (by decide) (by decide) (by decide)).1)⟩

/-- Counterexample trace for C1: two renders of one binding instance with a
valid target and unchanged props. -/
def cex1ev : List (Ev Nat) :=
  [Ev.render (some ⟨1, true⟩) CbArg.absent 0 none,
   Ev.render (some ⟨1, true⟩) CbArg.absent 0 none]

/-- C1 (counterexample): after the second commit, two handles exist and
`disconnect()` has been called on neither — the replacement handle 1 was
created while handle 0 (by then actively observing) had not been
disconnected.  This falsifies both "at most one live (non-disconnected)
handle at any time" and "whenever a replacement handle is created, the prior
handle has already been disconnected". -/
theorem claim1_counterexample :
    (run cex1ev).nextId = 2 ∧ countLive (run cex1ev) = 2 ∧
    countDisc (run cex1ev).log 0 = 0 ∧ countDisc (run cex1ev).log 1 = 0 ∧
    ((run cex1ev).obsFun 0).observing = true := by decide

/-- C1 (amended): at most one handle is *actively observing* at any time in
any reachable state; but created-and-not-yet-disconnected handles can
coexist, since the creation effect runs before the prior handle's disconnect
cleanup (which only happens at the next commit, and never for a handle that
never began observing). -/
theorem claim1_amended {α : Type} (evs : List (Ev α)) :
    countObserving (run evs) ≤ 1 :=
  countObserving_le_one (hookInv_run evs)

/-- Counterexample trace for C2: two renders whose transform identity (5) and
configuration identity (3) are both unchanged. -/
def cex2ev : List (Ev Nat) :=
  [Ev.render (some ⟨1, true⟩) (CbArg.fn fun b co => some (b + co)) 5
    (some ⟨3, defaultMutationObserverOptions⟩),
   Ev.render (some ⟨1, true⟩) (CbArg.fn fun b co => some (b + co)) 5
    (some ⟨3, defaultMutationObserverOptions⟩)]

/-- C2 (counterexample): two handle creations despite the transform's and the
configuration object's identities never changing after initialization — the
creation effect's dependency list contains the per-render `handleChanges`
closure, which is fresh on every render, so "at no other time" fails. -/
theorem claim2_counterexample : countCreate (run cex2ev).log = 2 := by decide

/-- C2 (amended): a fresh subscription handle is created on *every* mounted
render commit (hence on initialization and on every transform or
configuration identity change, but also on renders where neither changed),
and the new handle's notification callback closes over the `observer` state
value and `callback` prop of the creating render; when a handle's callback
fires with a function transform, it invokes the transform with the delivered
batch and that closed-over handle — the handle current at the creating
render, not the firing handle itself. -/
theorem claim2_amended {α : Type} (evs : List (Ev α)) (t : Option Target)
    (cb : CbArg α) (cbId : Nat) (opts : Option OptsArg)
    (hm : (run evs).mounted = true) :
    countCreate (step (run evs) (Ev.render t cb cbId opts)).log =
      countCreate (run evs).log + 1 ∧
    (step (run evs) (Ev.render t cb cbId opts)).nextId = (run evs).nextId + 1 ∧
    (step (run evs) (Ev.render t cb cbId opts)).obsFun (run evs).nextId =
      ⟨(run evs).observerCell, cb, false, false⟩ ∧
    (∀ o b co (f : Nat → Nat → Option α),
      ((run evs).obsFun o).observing = true →
      ((run evs).obsFun o).closedObserver = some co →
      ((run evs).obsFun o).closedCb = CbArg.fn f →
      (step (run evs) (Ev.notify o b)).log =
        Act.invoke o co (f b co) :: Act.deliver o b :: (run evs).log) := by
  have hInv := hookInv_run evs
  refine ⟨stepRender_countCreate hInv hm t cb opts,
    stepRender_nextId hInv hm t cb opts,
    stepRender_new_rec hInv hm t cb opts, ?_⟩
  intro o b co f ho hco hcb
  cases hres : f b co with
  | none =>
    rw [show step (run evs) (Ev.notify o b) = stepNotify (run evs) o b from rfl,
      stepNotify_invoke_none b ho hco hcb hres]
  | some v =>
    rw [show step (run evs) (Ev.notify o b) = stepNotify (run evs) o b from rfl,
      stepNotify_invoke_some b ho hco hcb hres]

theorem claim2_amended_witness :
    (run ([] : List (Ev Nat))).mounted = true ∧
    countCreate (step (run ([] : List (Ev Nat)))
      (Ev.render (some ⟨1, true⟩) CbArg.absent 0 none)).log =
      countCreate (run ([] : List (Ev Nat))).log + 1 :=
  ⟨by decide,
    (claim2_amended [] (some ⟨1, true⟩) CbArg.absent 0 none (by decide)).1⟩

theorem runCleanup_countDisc {α : Type} (s : HookState α) (k : Nat) :
    countDisc (runCleanup s).log k =
      countDisc s.log k + (if s.eff2Cleanup = some k then 1 else 0) := by
  cases h : s.eff2Cleanup with
  | none =>
    rw [runCleanup_eq_none s h]
    simp
  | some p =>
    rw [runCleanup_eq_some s p h]
    simp only [disconnectObs, setObs]
    rw [countDisc_cons_disconnect]
    by_cases hp : p = k
    · subst hp; simp
    · simp [hp]

theorem observeEffect_countDisc {α : Type} (s : HookState α) (obsR : Option Nat)
    (t : Option Target) (oid : Option Nat) (opts : MutationObserverOptions)
    (k : Nat) :
    countDisc (observeEffect s obsR t oid opts).log k = countDisc s.log k := by
  cases obsR with
  | none => rw [observeEffect_log_noObs]
  | some o =>
    cases t with
    | none => rw [observeEffect_log_noTarget]
    | some tt =>
      by_cases hv : tt.valid = true
      · rw [observeEffect_log_ok s o tt oid opts hv]
        exact countDisc_cons_skip _ _ _ (by intro j hj; cases hj)
      · rw [observeEffect_log_err s o tt oid opts (by simpa using hv)]
        exact countDisc_cons_skip _ _ _ (by intro j hj; cases hj)

theorem stepRender_countDisc {α : Type} {s : HookState α} (hInv : HookInv s)
    (hm : s.mounted = true) (t : Option Target) (cb : CbArg α)
    (opts : Option OptsArg) (k : Nat) :
    countDisc (stepRender s t cb opts).log k =
      countDisc s.log k + (if s.eff2Cleanup = some k then 1 else 0) := by
  rw [stepRender_eq hInv hm t cb opts, observeEffect_countDisc,
    createObserverEffect_log,
    countDisc_cons_skip _ _ _ (by intro j h; cases h),
    runCleanup_countDisc,
    countDisc_cons_skip _ _ _ (by intro j h; cases h)]

/-- Counterexample trace for C6: two renders with configuration identity 1,
then a render with configuration identity 2 (the configuration-identity
change), all with a valid target. -/
def cex6ev : List (Ev Nat) :=
  [Ev.render (some ⟨1, true⟩) CbArg.absent 0 (some ⟨1, defaultMutationObserverOptions⟩),
   Ev.render (some ⟨1, true⟩) CbArg.absent 0 (some ⟨1, defaultMutationObserverOptions⟩),
   Ev.render (some ⟨1, true⟩) CbArg.absent 0 (some ⟨2, defaultMutationObserverOptions⟩)]

/-- C6 (counterexample): right after the configuration-identity change
commits, two handles coexist live (non-disconnected): handle 1, now
observing, and the freshly created handle 2 — "at no point during the
transition do two handles coexist live" fails (handle 0 was disconnected
exactly once, and exactly one handle was created, so the other clauses
hold). -/
theorem claim6_counterexample :
    countLive (run cex6ev) = 2 ∧ (run cex6ev).nextId = 3 ∧
    countDisc (run cex6ev).log 0 = 1 ∧ countDisc (run cex6ev).log 1 = 0 ∧
    countObserving (run cex6ev) = 1 := by decide

/-- C6 (amended): a mounted render commit — in particular one whose
configuration identity changed — creates exactly one new handle and calls
`disconnect()` exactly once, on the handle held by the registered cleanup
(zero times when no cleanup was registered, e.g. with no target); at most one
handle is actively observing at any point, though the prior handle and the
new one coexist non-disconnected. -/
theorem claim6_amended {α : Type} (evs : List (Ev α)) (t : Option Target)
    (cb : CbArg α) (cbId : Nat) (opts : Option OptsArg)
    (hm : (run evs).mounted = true) :
    countCreate (step (run evs) (Ev.render t cb cbId opts)).log =
      countCreate (run evs).log + 1 ∧
    countDiscAll (step (run evs) (Ev.render t cb cbId opts)).log =
      countDiscAll (run evs).log +
        (if (run evs).eff2Cleanup.isSome then 1 else 0) ∧
    (∀ p, (run evs).eff2Cleanup = some p →
      countDisc (step (run evs) (Ev.render t cb cbId opts)).log p =
        countDisc (run evs).log p + 1) ∧
    countObserving (step (run evs) (Ev.render t cb cbId opts)) ≤ 1 := by
  have hInv := hookInv_run evs
  refine ⟨stepRender_countCreate hInv hm t cb opts,
    stepRender_countDiscAll hInv hm t cb opts, ?_, ?_⟩
  · intro p hp
    rw [show step (run evs) (Ev.render t cb cbId opts) =
        stepRender (run evs) t cb opts from rfl,
      stepRender_countDisc hInv hm t cb opts p, hp, if_pos rfl]
  · exact countObserving_le_one (hookInv_step hInv (Ev.render t cb cbId opts))

/-- Witness trace for the amended C6: two renders with a valid target, after
which the cleanup holds handle 0. -/
def w6ev : List (Ev Nat) :=
  [Ev.render (some ⟨1, true⟩) CbArg.absent 0 none,
   Ev.render (some ⟨1, true⟩) CbArg.absent 0 none]

theorem claim6_amended_witness :
    (run w6ev).mounted = true ∧ (run w6ev).eff2Cleanup = some 0 ∧
    countDisc (step (run w6ev)
      (Ev.render (some ⟨1, true⟩) CbArg.absent 0
        (some ⟨2, defaultMutationObserverOptions⟩))).log 0 =
      countDisc (run w6ev).log 0 + 1 :=
  ⟨by decide, by decide,
    (claim6_amended w6ev (some ⟨1, true⟩) CbArg.absent 0
      (some ⟨2, defaultMutationObserverOptions⟩) (by decide)).2.2.1 0 (by decide)⟩

/-- C7 (confirmed): unmounting while a handle is actively observing calls
`disconnect()` on that handle exactly once (its disconnect count in the log
goes from zero to one and the post-unmount state is a fixed point of every
further event), and no transform invocation — indeed no state change at
all — occurs after discard. -/
theorem claim7_unmount_once_then_inert {α : Type} (evs : List (Ev α)) (o : Nat)
    (hm : (run evs).mounted = true)
    (ho : ((run evs).obsFun o).observing = true) :
    countDisc (step (run evs) Ev.unmount).log o = 1 ∧
    (∀ evs2, runFrom (step (run evs) Ev.unmount) evs2 =
      step (run evs) Ev.unmount) := by
  have hInv := hookInv_run evs
  have hc : (run evs).eff2Cleanup = some o := hInv.observingCleanup o ho
  have hnd : ((run evs).obsFun o).disconnected = false := hInv.cleanupNotDisc o hc
  have hzero : countDisc (run evs).log o = 0 := by
    rw [hInv.discLog o, hnd]
    rfl
  have hstep : step (run evs) Ev.unmount =
      { runCleanup (run evs) with
          mounted := false
          log := Act.unmounted :: (runCleanup (run evs)).log } := by
    show stepUnmount (run evs) = _
    simp only [stepUnmount, hm, if_true]
  constructor
  · rw [hstep]
    show countDisc (Act.unmounted :: (runCleanup (run evs)).log) o = 1
    rw [countDisc_cons_skip _ _ _ (by intro j h; cases h),
      runCleanup_countDisc, hc, if_pos rfl, hzero]
  · intro evs2
    have hInv' := hookInv_step hInv Ev.unmount
    have hm' : (step (run evs) Ev.unmount).mounted = false := by
      rw [hstep]
    exact runFrom_of_unmounted hInv' hm' evs2

/-- Witness trace for C7: two renders with a valid target, after which
handle 0 is actively observing. -/
def w7ev : List (Ev Nat) :=
  [Ev.render (some ⟨1, true⟩) CbArg.absent 0 none,
   Ev.render (some ⟨1, true⟩) CbArg.absent 0 none]

theorem claim7_witness :
    (run w7ev).mounted = true ∧ ((run w7ev).obsFun 0).observing = true ∧
    countDisc (step (run w7ev) Ev.unmount).log 0 = 1 :=
  ⟨by decide, by decide,
    (claim7_unmount_once_then_inert w7ev 0 (by decide) (by decide)).1⟩

/-- C8 (confirmed): the binding's output is the pair `(value, handle)` read
from the two state cells; in every reachable state the value cell holds the
latest defined transform result (`undefined` until the first defined result),
and the observer cell is null until the first handle is created and
thereafter holds the most recently created handle; every mounted render logs
exactly this pair as the render's output. -/
theorem claim8_output_contract {α : Type} (evs : List (Ev α)) :
    useMutationObserverReturn (run evs) =
      ((run evs).valueCell, (run evs).observerCell) ∧
    (run evs).valueCell = latestDefined (run evs).log ∧
    (run evs).observerCell =
      (if (run evs).nextId = 0 then none else some ((run evs).nextId - 1)) ∧
    (∀ (t : Option Target) (cb : CbArg α) (cbId : Nat) (opts : Option OptsArg),
      (run evs).mounted = true →
      ∃ l, (step (run evs) (Ev.render t cb cbId opts)).log =
        l ++ Act.rendered (useMutationObserverReturn (run evs)).1
          (useMutationObserverReturn (run evs)).2 :: (run evs).log) := by
  have hInv := hookInv_run evs
  refine ⟨rfl, hInv.valueLog, hInv.cellEq, ?_⟩
  intro t cb cbId opts hm
  exact stepRender_log_suffix hInv hm t cb opts

theorem claim8_witness :
    (run ([] : List (Ev Nat))).mounted = true ∧
    (∃ l, (step (run ([] : List (Ev Nat)))
        (Ev.render (some ⟨1, true⟩) CbArg.absent 0 none)).log =
      l ++ Act.rendered (useMutationObserverReturn (run ([] : List (Ev Nat)))).1
        (useMutationObserverReturn (run ([] : List (Ev Nat)))).2 ::
        (run ([] : List (Ev Nat))).log) :=
  ⟨by decide,
    (claim8_output_contract ([] : List (Ev Nat))).2.2.2
      (some ⟨1, true⟩) CbArg.absent 0 none (by decide)⟩

/-- C9 (confirmed): when the caller omits the configuration argument, a
successful registration passes exactly the module-level default object to
`observe`, and that object enables attribute observation and nothing else:
`attributes` is explicitly `true` and every other recognized key is absent
(the browser facility's own default for `attributes` being `false`, the
wrapper's default overrides it). -/
theorem claim9_default_options {α : Type} (evs : List (Ev α)) (tt : Target)
    (cb : CbArg α) (cbId : Nat) (o : Nat)
    (hm : (run evs).mounted = true)
    (ho : (run evs).observerCell = some o)
    (hv : tt.valid = true) :
    (∃ l, (step (run evs) (Ev.render (some tt) cb cbId none)).log =
      Act.observeOk o tt.id defaultMutationObserverOptions :: l) ∧
    defaultMutationObserverOptions =
      ⟨some true, none, none, none, none, none, none⟩ := by
  have hInv := hookInv_run evs
  constructor
  · rw [show step (run evs) (Ev.render (some tt) cb cbId none) =
        stepRender (run evs) (some tt) cb none from rfl,
      stepRender_eq hInv hm (some tt) cb none, ho]
    rw [show (effectiveOpts none).2 = defaultMutationObserverOptions from rfl]
    rw [observeEffect_log_ok _ o tt _ _ hv]
    exact ⟨_, rfl⟩
  · rfl

/-- Witness trace for C9: one render with a valid target, after which the
observer cell holds handle 0. -/
def w9ev : List (Ev Nat) :=
  [Ev.render (some ⟨1, true⟩) CbArg.absent 0 none]

theorem claim9_witness :
    (run w9ev).mounted = true ∧ (run w9ev).observerCell = some 0 ∧
    (⟨2, true⟩ : Target).valid = true ∧
    (∃ l, (step (run w9ev)
        (Ev.render (some ⟨2, true⟩) CbArg.absent 0 none)).log =
      Act.observeOk 0 2 defaultMutationObserverOptions :: l) :=
  ⟨by decide, by decide, by decide,
    (claim9_default_options w9ev ⟨2, true⟩ CbArg.absent 0 0
      (by decide) (by decide) (by decide)).1⟩

theorem stepRender_countObserveErr_err {α : Type} {s : HookState α}
    (hInv : HookInv s) (hm : s.mounted = true) {o : Nat}
    (ho : s.observerCell = some o) (tt : Target) (hv : tt.valid = false)
    (cb : CbArg α) (opts : Option OptsArg) :
    countObserveErr (stepRender s (some tt) cb opts).log =
      countObserveErr s.log + 1 := by
  rw [stepRender_eq hInv hm (some tt) cb opts, ho,
    observeEffect_log_err _ o tt _ _ hv, countObserveErr_cons_err,
    createObserverEffect_log,
    countObserveErr_cons_skip _ _ (by intro j h; cases h),
    runCleanup_countObserveErr,
    countObserveErr_cons_skip _ _ (by intro j h; cases h)]

theorem stepRender_countObserveOk_err {α : Type} {s : HookState α}
    (hInv : HookInv s) (hm : s.mounted = true) {o : Nat}
    (ho : s.observerCell = some o) (tt : Target) (hv : tt.valid = false)
    (cb : CbArg α) (opts : Option OptsArg) :
    countObserveOk (stepRender s (some tt) cb opts).log =
      countObserveOk s.log := by
  rw [stepRender_eq hInv hm (some tt) cb opts, ho,
    observeEffect_log_err _ o tt _ _ hv,
    countObserveOk_cons_skip _ _ (by intro j tj oj h; cases h),
    createObserverEffect_log,
    countObserveOk_cons_skip _ _ (by intro j tj oj h; cases h),
    runCleanup_countObserveOk,
    countObserveOk_cons_skip _ _ (by intro j tj oj h; cases h)]

/-- C5 (confirmed): a registration failure (rendering with a present but
non-observable target) is caught — exactly one error is logged, no
registration is recorded, and nothing is thrown (the step is total); the
binding's cells are unaffected by the failure: the value cell is unchanged
and the observer cell is exactly what the same render with an observable
target would have produced; the binding is left inert (nothing observing) but
remains usable — the next render with an observable target registers again,
leaving exactly one handle observing. -/
theorem claim5_registration_failure {α : Type} (evs : List (Ev α)) (tt : Target)
    (cb : CbArg α) (cbId : Nat) (opts : Option OptsArg) (o : Nat)
    (hm : (run evs).mounted = true)
    (ho : (run evs).observerCell = some o)
    (hv : tt.valid = false) :
    (step (run evs) (Ev.render (some tt) cb cbId opts)).valueCell =
      (run evs).valueCell ∧
    (step (run evs) (Ev.render (some tt) cb cbId opts)).observerCell =
      (step (run evs) (Ev.render (some ⟨tt.id, true⟩) cb cbId opts)).observerCell ∧
    countObserveErr (step (run evs) (Ev.render (some tt) cb cbId opts)).log =
      countObserveErr (run evs).log + 1 ∧
    countObserveOk (step (run evs) (Ev.render (some tt) cb cbId opts)).log =
      countObserveOk (run evs).log ∧
    countObserving (step (run evs) (Ev.render (some tt) cb cbId opts)) = 0 ∧
    (∀ (tt2 : Target), tt2.valid = true →
      ∀ (cb2 : CbArg α) (cbId2 : Nat) (opts2 : Option OptsArg),
      countObserving (step (step (run evs) (Ev.render (some tt) cb cbId opts))
        (Ev.render (some tt2) cb2 cbId2 opts2)) = 1) := by
  have hInv := hookInv_run evs
  refine ⟨stepRender_valueCell hInv hm (some tt) cb opts, ?_, ?_, ?_, ?_, ?_⟩
  · rw [show step (run evs) (Ev.render (some tt) cb cbId opts) =
        stepRender (run evs) (some tt) cb opts from rfl,
      show step (run evs) (Ev.render (some ⟨tt.id, true⟩) cb cbId opts) =
        stepRender (run evs) (some ⟨tt.id, true⟩) cb opts from rfl,
      stepRender_observerCell hInv hm (some tt) cb opts,
      stepRender_observerCell hInv hm (some ⟨tt.id, true⟩) cb opts]
  · exact stepRender_countObserveErr_err hInv hm ho tt hv cb opts
  · exact stepRender_countObserveOk_err hInv hm ho tt hv cb opts
  · exact countObserving_eq_zero (stepRender_noObserving_err hInv hm tt hv cb opts)
  · intro tt2 hv2 cb2 cbId2 opts2
    have hInv' := hookInv_step hInv (Ev.render (some tt) cb cbId opts)
    have hm' : (step (run evs) (Ev.render (some tt) cb cbId opts)).mounted = true :=
      stepRender_mounted hInv hm (some tt) cb opts
    have ho' : (step (run evs) (Ev.render (some tt) cb cbId opts)).observerCell =
        some (run evs).nextId :=
      stepRender_observerCell hInv hm (some tt) cb opts
    have hobs := stepRender_observing_ok hInv' hm' ho' tt2 hv2 cb2 opts2
    exact countObserving_eq_one
      (hookInv_step hInv' (Ev.render (some tt2) cb2 cbId2 opts2)) hobs

/-- Witness trace for C5: one render with a valid target, so the observer
cell holds handle 0; the failing render then uses an invalid target. -/
def w5ev : List (Ev Nat) :=
  [Ev.render (some ⟨1, true⟩) CbArg.absent 0 none]

theorem claim5_witness :
    (run w5ev).mounted = true ∧ (run w5ev).observerCell = some 0 ∧
    (⟨3, false⟩ : Target).valid = false ∧
    countObserving (step (run w5ev)
      (Ev.render (some ⟨3, false⟩) CbArg.absent 0 none)) = 0 :=
  ⟨by decide, by decide, by decide,
    (claim5_registration_failure w5ev ⟨3, false⟩ CbArg.absent 0 none 0
      (by decide) (by decide) (by decide)).2.2.2.2.1⟩
